import Mathlib

/-!
# ServiceUIClone: a shallow embedding of the session launcher

The launcher (`ServiceUIClone.cpp`) assembles a command line from its arguments and then
drives a fixed sequence of Win32 security primitives.  The embedding has two layers:

* the pure string layer (`Trim`, the argument loop of `_tmain`), over `WString`;
* the pipeline layer, where every Win32 call is answered by an `OS` record of outcomes
  and every observable action is appended to a trace of `Event`s.

`_tmain` is one long function; it is embedded as `assemble` (lines 111-150) followed by the
four stages `pipeline`, `forgeToken`, `enablePrivileges` and `launchAndWait`, each of which
ends by entering the next one, so that their composition is the body of `_tmain` in program
order.

Modelling conventions.  A `std::wstring` is a list of characters; a `wchar_t` is a `Char`.
`size_t` indices are natural numbers and `std::wstring::npos` is `none`; no index computed by
the program overflows.  A Win32 call that succeeds in creating a handle returns a valid one
(neither `nullptr` nor `INVALID_HANDLE_VALUE`), named after the call site.  C++ exceptions
(`std::bad_alloc` and the like) are not modelled.
-/

namespace ServiceUIClone

/-- A wide string: the contents of a `std::wstring` or of a NUL-terminated `TCHAR*`. -/
abbrev WString := List Char

/-- The wide string literal `L"..."` (or `_T("...")`) with the given text. -/
def wstr (s : String) : WString := s.toList

/-! ## String helpers -/

/-- The character set `L" \t\n\r"` used by `Trim`. -/
def whitespace : WString := [' ', '\t', '\n', '\r']

/-- Model of `std::wstring::find_first_not_of`: index of the first character of `str` that is
not in `chars`, `none` standing for `npos`. -/
def find_first_not_of : WString → WString → Option Nat
  | [], _ => none
  | c :: rest, chars =>
    if chars.contains c then (find_first_not_of rest chars).map (· + 1) else some 0

/-- Model of `std::wstring::find_last_not_of`: index of the last character of `str` that is
not in `chars`, `none` standing for `npos`. -/
def find_last_not_of : WString → WString → Option Nat
  | [], _ => none
  | c :: rest, chars =>
    match find_last_not_of rest chars with
    | some i => some (i + 1)
    | none => if chars.contains c then none else some 0

/-- Model of `std::wstring::substr(pos, n)` for `pos ≤ size()`. -/
def substr (str : WString) (pos n : Nat) : WString := (str.drop pos).take n

/-- `Trim`: strip the characters of `whitespace` from both ends.  Once `find_first_not_of` has
found a character, `find_last_not_of` finds one at or after it (`find_last_not_of_isSome`), so
`end - start + 1` does not wrap and the `npos` branch for `end` is never taken; there the
length is `npos - start + 1` in 64-bit `size_t` arithmetic, with `npos = 2 ^ 64 - 1`. -/
def Trim (str : WString) : WString :=
  match find_first_not_of str whitespace with
  | none => []
  | some start =>
    match find_last_not_of str whitespace with
    | none => substr str start ((2 ^ 64 - 1 - start + 1) % 2 ^ 64)
    | some end_ => substr str start (end_ - start + 1)

/-! ## Command assembly (`_tmain`, first part) -/

/-- The flag test of `_tmain`: `waitForProcess` and `argStart`.  `argv` includes the program
name at index 0 and `argc` is its length; `_tcscmp(..) == 0` is equality of the strings. -/
def parseWait (argv : List WString) : Bool × Nat :=
  if 1 < argv.length ∧
      (argv.getD 1 [] = wstr "/wait" ∨ argv.getD 1 [] = wstr "-wait") then
    (true, 2)
  else
    (false, 1)

/-- The argument loop `for (i = argStart; i < argc; ++i)`: `i` is the loop index, the list is
`argv[i], ..., argv[argc-1]`, the last argument is the string built so far. -/
def combineLoop (argStart : Nat) : Nat → List WString → WString → WString
  | _, [], commandLine => commandLine
  | i, arg :: rest, commandLine =>
    combineLoop argStart (i + 1) rest
      ((if argStart < i then commandLine ++ [' '] else commandLine) ++ arg)

/-- The combined, untrimmed command line built from `argv[argStart..argc)`. -/
def combineArgs (argv : List WString) (argStart : Nat) : WString :=
  combineLoop argStart argStart (argv.drop argStart) []

/-- `MAX_CMDLINE_LENGTH`. -/
def MAX_CMDLINE_LENGTH : Nat := 1024

/-- Result of the validation part of `_tmain`: one of its three early `return 1` exits, or the
wait flag and the trimmed command line with which the pipeline is entered. -/
inductive Assembly where
  | usageError
  | emptyCommand
  | commandTooLong
  | ok (waitForProcess : Bool) (commandLine : WString)
  deriving DecidableEq, Repr

/-- Lines 111-150 of `_tmain`: flag test, argument count check, join, trim, the emptiness and
the length check, in this order. -/
def assemble (argv : List WString) : Assembly :=
  let waitForProcess := (parseWait argv).1
  let argStart := (parseWait argv).2
  if argv.length < argStart + 1 then .usageError
  else
    let commandLine := Trim (combineArgs argv argStart)
    if commandLine.isEmpty then .emptyCommand
    else if MAX_CMDLINE_LENGTH < commandLine.length then .commandTooLong
    else .ok waitForProcess commandLine

/-! ## The operating system and the trace -/

/-- What a handle of the launcher refers to, named by the call that creates it. -/
inductive Resource where
  /-- The token opened by `OpenProcessToken` in `_tmain`. -/
  | processToken
  /-- The primary token made by `DuplicateTokenEx`. -/
  | duplicateToken
  /-- The token opened by `OpenProcessToken` inside `EnablePrivilege privilegeName`. -/
  | privilegeToken (privilegeName : WString)
  /-- The field `pi.hProcess` filled by `CreateProcessAsUser`. -/
  | childProcess
  /-- The field `pi.hThread` filled by `CreateProcessAsUser`. -/
  | childThread
  deriving DecidableEq, Repr

/-- A `HANDLE` value: `nullptr`, `INVALID_HANDLE_VALUE`, or a handle to a resource. -/
inductive HANDLE where
  | null
  | invalid
  | valid (r : Resource)
  deriving DecidableEq, Repr

/-- Outcome of a Win32 call returning `BOOL`: success, or failure together with the code the
call leaves for `GetLastError`. -/
inductive Win32Result where
  | ok
  | fail (lastError : Nat)
  deriving DecidableEq, Repr

/-- The `BOOL` returned to the caller. -/
def Win32Result.succeeded : Win32Result → Bool
  | .ok => true
  | .fail _ => false

/-- The last-error value after the call, `prev` being the value before it. -/
def Win32Result.lastErrorAfter : Win32Result → Nat → Nat
  | .ok, prev => prev
  | .fail err, _ => err

/-- Outcomes of the three calls made by one `EnablePrivilege`.  `adjustLastError` is the last
error left by an `AdjustTokenPrivileges` that returns `TRUE` (`ERROR_SUCCESS`, or
`ERROR_NOT_ALL_ASSIGNED` when the token does not hold the privilege). -/
structure PrivilegeOutcome where
  openProcessToken : Win32Result
  lookupPrivilegeValue : Win32Result
  adjustTokenPrivileges : Win32Result
  adjustLastError : Nat

/-- The answers of the operating system to every call site of the launcher.  Each call site is
executed at most once in a run, so one answer per site describes a run completely. -/
structure OS where
  initialLastError : Nat
  formatMessage : Nat → Option WString
  impersonateSelf : Win32Result
  activeConsoleSessionId : Nat
  openProcessToken : Win32Result
  duplicateTokenEx : Win32Result
  revertToSelf : Win32Result
  setTokenInformation : Win32Result
  privilege : WString → PrivilegeOutcome
  createProcessAsUser : Win32Result
  processId : Nat
  waitForSingleObject : Nat
  waitLastError : Nat
  getExitCodeProcess : Win32Result
  childExitCode : Nat

/-- Observable actions of a run, in program order. -/
inductive Event where
  /-- One line written to `std::wcerr`. -/
  | stderr (line : WString)
  /-- One line written to `std::wcout`. -/
  | stdout (line : WString)
  /-- One call of `LogMessage`. -/
  | log (msg : WString)
  | impersonateSelf
  | wtsGetActiveConsoleSessionId
  /-- `OpenProcessToken` issued to obtain `target`; `ok` is its return value. -/
  | openProcessToken (target : Resource) (ok : Bool)
  | duplicateTokenEx (existingToken : HANDLE) (ok : Bool)
  | revertToSelf
  | setTokenInformation (token : HANDLE) (sessionId : Nat)
  | lookupPrivilegeValue (privilegeName : WString)
  | adjustTokenPrivileges (token : HANDLE)
  | createProcessAsUser (token : HANDLE) (commandLine : WString) (ok : Bool)
  | waitForSingleObject (h : HANDLE)
  | getExitCodeProcess (h : HANDLE)
  | closeHandle (h : HANDLE)
  deriving DecidableEq, Repr

/-- The state threaded through a run: the thread's last-error value and the trace so far.
Only a failing call and `AdjustTokenPrivileges` write the last-error value. -/
structure World where
  lastError : Nat
  trace : List Event

/-- Append one event to the trace. -/
def World.emit (w : World) (e : Event) : World :=
  { w with trace := w.trace ++ [e] }

/-- Perform a `BOOL` call whose answer is `r`, recording `e`. -/
def World.call (w : World) (e : Event) (r : Win32Result) : Bool × World :=
  (r.succeeded, { lastError := r.lastErrorAfter w.lastError, trace := w.trace ++ [e] })

/-- `CloseHandle`. -/
def CloseHandle (h : HANDLE) (w : World) : World := w.emit (.closeHandle h)

/-! ## `HandleWrapper` -/

/-- The RAII helper: it owns the `HANDLE` stored in it. -/
structure HandleWrapper where
  handle : HANDLE := .null

/-- `HandleWrapper::get`. -/
def HandleWrapper.get (hw : HandleWrapper) : HANDLE := hw.handle

/-- `HandleWrapper::reset`: close the held handle when it is neither null nor invalid, then
hold `h`. -/
def HandleWrapper.reset (hw : HandleWrapper) (h : HANDLE) (w : World) : HandleWrapper × World :=
  (⟨h⟩, if hw.handle ≠ .null ∧ hw.handle ≠ .invalid then CloseHandle hw.handle w else w)

/-- `HandleWrapper::~HandleWrapper`. -/
def HandleWrapper.destroy (hw : HandleWrapper) (w : World) : World :=
  if hw.handle ≠ .null ∧ hw.handle ≠ .invalid then CloseHandle hw.handle w else w

/-! ## Logging -/

/-- `LogMessage`: the message handed to the log file (the time stamp and the best-effort file
write are not modelled). -/
def LogMessage (msg : WString) (w : World) : World := w.emit (.log msg)

/-- Decimal rendering, as done by `std::to_wstring` and by `operator<<` on a `DWORD`. -/
def to_wstring (n : Nat) : WString := Nat.toDigits 10 n

/-- The text `PrintError` builds for `msg` when `GetLastError` returns `errCode`:
`msg`, the error code, and the text `FormatMessage` renders for it, if any. -/
def errorLine (os : OS) (msg : WString) (errCode : Nat) : WString :=
  let logStr := msg ++ wstr " Error Code: " ++ to_wstring errCode
  match os.formatMessage errCode with
  | some errorText => logStr ++ wstr " - " ++ errorText
  | none => logStr

/-- `PrintError`: read the last error, render it, write the line to `std::wcerr` and to the
log. -/
def PrintError (os : OS) (msg : WString) (w : World) : World :=
  let errCode := w.lastError
  let logStr := errorLine os msg errCode
  LogMessage logStr (w.emit (.stderr logStr))

/-! ## `EnablePrivilege` -/

/-- `ERROR_SUCCESS`. -/
def ERROR_SUCCESS : Nat := 0

/-- `EnablePrivilege`: open the process token, look the privilege up, adjust the token, and
report whether the last error is `ERROR_SUCCESS`.  The local `hToken` is destroyed on every
return. -/
def EnablePrivilege (os : OS) (privilegeName : WString) (w : World) : Bool × World :=
  let hToken : HandleWrapper := {}
  let p := os.privilege privilegeName
  let r := w.call (.openProcessToken (.privilegeToken privilegeName) p.openProcessToken.succeeded)
    p.openProcessToken
  if r.1 = false then (false, hToken.destroy r.2)
  else
    let tokenHandle := HANDLE.valid (.privilegeToken privilegeName)
    let hw := hToken.reset tokenHandle r.2
    let hToken := hw.1
    let r := hw.2.call (.lookupPrivilegeValue privilegeName) p.lookupPrivilegeValue
    if r.1 = false then (false, hToken.destroy r.2)
    else
      let r := r.2.call (.adjustTokenPrivileges hToken.get) p.adjustTokenPrivileges
      if r.1 = false then (false, hToken.destroy r.2)
      else
        let w : World := { r.2 with lastError := p.adjustLastError }
        (decide (w.lastError = ERROR_SUCCESS), hToken.destroy w)

/-! ## `_tmain` -/

/-- `SE_INCREASE_QUOTA_NAME`. -/
def SE_INCREASE_QUOTA_NAME : WString := wstr "SeIncreaseQuotaPrivilege"

/-- `SE_ASSIGNPRIMARYTOKEN_NAME`. -/
def SE_ASSIGNPRIMARYTOKEN_NAME : WString := wstr "SeAssignPrimaryTokenPrivilege"

/-- The literal `_T("SeTcbPrivilege")`. -/
def SE_TCB_NAME : WString := wstr "SeTcbPrivilege"

/-- `WAIT_OBJECT_0`. -/
def WAIT_OBJECT_0 : Nat := 0

/-- Conversion of a `DWORD` to the `int` returned by `_tmain` (two's complement, 32 bits). -/
def toInt32 (d : Nat) : Int :=
  if d % 2 ^ 32 < 2 ^ 31 then (d % 2 ^ 32 : Nat) else ((d % 2 ^ 32 : Nat) : Int) - 2 ^ 32

/-- The exit code of a process whose `main` returned `r`: the `int` read back as a `DWORD`. -/
def exitStatus (r : Int) : Nat := (r % 2 ^ 32).toNat

/-- Lines 223-301 of `_tmain` (steps 6 and 7 and the wait block): create the process with the
duplicate token and, in wait mode, wait for it.  `hProcessToken` and `hDupToken` are the
`HandleWrapper` locals in scope; every `return` destroys them, the last constructed first. -/
def launchAndWait (os : OS) (waitForProcess : Bool) (commandLine : WString) (sessionId : Nat)
    (hProcessToken hDupToken : HandleWrapper) (w : World) : Int × World :=
  let w := LogMessage (wstr "Attempting to launch process with CreateProcessAsUser.") w
  let r := w.call
    (.createProcessAsUser hDupToken.get commandLine os.createProcessAsUser.succeeded)
    os.createProcessAsUser
  if r.1 = false then
    (1, hProcessToken.destroy (hDupToken.destroy
      (PrintError os (wstr "CreateProcessAsUser failed.") r.2)))
  else
    let hProcess := HANDLE.valid .childProcess
    let hThread := HANDLE.valid .childThread
    let launched := wstr "Process launched successfully in session " ++ to_wstring sessionId
      ++ wstr ". Process ID: " ++ to_wstring (os.processId % 2 ^ 32)
    let w := (LogMessage launched r.2).emit (.stdout launched)
    -- the code after the `if (waitForProcess)` block
    let cleanup (w : World) : Int × World :=
      (0, hProcessToken.destroy (hDupToken.destroy
        (CloseHandle hThread (CloseHandle hProcess w))))
    if waitForProcess then
      let w := LogMessage (wstr "Waiting for the launched process to exit...") w
      let waitResult := os.waitForSingleObject % 2 ^ 32
      let w : World :=
        { lastError := if waitResult = WAIT_OBJECT_0 then w.lastError else os.waitLastError,
          trace := w.trace ++ [.waitForSingleObject hProcess] }
      if waitResult = WAIT_OBJECT_0 then
        let r := w.call (.getExitCodeProcess hProcess) os.getExitCodeProcess
        if r.1 then
          let exitCode := os.childExitCode % 2 ^ 32
          let exited := wstr "Launched process exited with code: " ++ to_wstring exitCode
          let w := (LogMessage exited r.2).emit (.stdout exited)
          let w := CloseHandle hThread (CloseHandle hProcess w)
          (toInt32 exitCode, hProcessToken.destroy (hDupToken.destroy w))
        else
          cleanup (PrintError os (wstr "Failed to get exit code from process.") r.2)
      else
        cleanup (PrintError os (wstr "WaitForSingleObject failed.") w)
    else
      cleanup w

/-- Lines 208-221 of `_tmain` (step 5): enable the three privileges, then go on to
`launchAndWait`. -/
def enablePrivileges (os : OS) (waitForProcess : Bool) (commandLine : WString) (sessionId : Nat)
    (hProcessToken hDupToken : HandleWrapper) (w : World) : Int × World :=
  let r := EnablePrivilege os SE_INCREASE_QUOTA_NAME w
  if r.1 = false then
    (1, hProcessToken.destroy (hDupToken.destroy
      (PrintError os (wstr "Failed to enable SeIncreaseQuotaPrivilege.") r.2)))
  else
    let r := EnablePrivilege os SE_ASSIGNPRIMARYTOKEN_NAME r.2
    if r.1 = false then
      (1, hProcessToken.destroy (hDupToken.destroy
        (PrintError os (wstr "Failed to enable SeAssignPrimaryTokenPrivilege.") r.2)))
    else
      let r := EnablePrivilege os SE_TCB_NAME r.2
      if r.1 = false then
        (1, hProcessToken.destroy (hDupToken.destroy
          (PrintError os
            (wstr "Failed to enable SeTcbPrivilege. The process must run as SYSTEM.") r.2)))
      else
        let w := LogMessage (wstr "Required privileges enabled successfully.") r.2
        launchAndWait os waitForProcess commandLine sessionId hProcessToken hDupToken w

/-- Lines 173-206 of `_tmain` (steps 2 to 4): open the process token, duplicate it, revert the
impersonation (a failure is reported and the run continues), stamp the session id on the
duplicate, then go on to `enablePrivileges`. -/
def forgeToken (os : OS) (waitForProcess : Bool) (commandLine : WString) (sessionId : Nat)
    (w : World) : Int × World :=
  let r := w.call (.openProcessToken .processToken os.openProcessToken.succeeded)
    os.openProcessToken
  if r.1 = false then (1, PrintError os (wstr "OpenProcessToken failed.") r.2)
  else
    let hProcessToken : HandleWrapper := ⟨.valid .processToken⟩
    let w := LogMessage (wstr "Opened process token successfully.") r.2
    let r := w.call (.duplicateTokenEx hProcessToken.get os.duplicateTokenEx.succeeded)
      os.duplicateTokenEx
    if r.1 = false then
      (1, hProcessToken.destroy (PrintError os (wstr "DuplicateTokenEx failed.") r.2))
    else
      let hDupToken : HandleWrapper := ⟨.valid .duplicateToken⟩
      let w := LogMessage (wstr "Duplicated token successfully.") r.2
      let r := w.call .revertToSelf os.revertToSelf
      let w :=
        if r.1 = false then PrintError os (wstr "RevertToSelf failed.") r.2
        else LogMessage (wstr "RevertToSelf succeeded.") r.2
      let r := w.call (.setTokenInformation hDupToken.get sessionId) os.setTokenInformation
      if r.1 = false then
        (1, hProcessToken.destroy (hDupToken.destroy
          (PrintError os (wstr "SetTokenInformation failed.") r.2)))
      else
        let w := LogMessage (wstr "Token session ID set to active console session.") r.2
        enablePrivileges os waitForProcess commandLine sessionId hProcessToken hDupToken w

/-- Lines 152-171 of `_tmain`: log the command line, impersonate, resolve the active console
session (step 1), then go on to `forgeToken`.  Returns the value of `_tmain` and the final
world. -/
def pipeline (os : OS) (waitForProcess : Bool) (commandLine : WString) (w : World) :
    Int × World :=
  let w := LogMessage (wstr "Command line to launch: " ++ commandLine) w
  let r := w.call .impersonateSelf os.impersonateSelf
  if r.1 = false then (1, PrintError os (wstr "ImpersonateSelf failed.") r.2)
  else
    let w := LogMessage (wstr "ImpersonateSelf called successfully.") r.2
    let sessionId := os.activeConsoleSessionId % 2 ^ 32
    let w := w.emit .wtsGetActiveConsoleSessionId
    if sessionId = 0xFFFFFFFF then
      (1, PrintError os (wstr "Failed to get active console session ID.") w)
    else
      let w := LogMessage (wstr "Active console session ID: " ++ to_wstring sessionId) w
      forgeToken os waitForProcess commandLine sessionId w

/-- The result of a run: the value returned by `_tmain` and the trace of the run. -/
structure Run where
  result : Int
  trace : List Event

/-- `_tmain`: `argv` is the full argument vector (`argv[0]` is the program name). -/
def _tmain (os : OS) (argv : List WString) : Run :=
  let w : World := ⟨os.initialLastError, []⟩
  let r : Int × World :=
    match assemble argv with
    | .usageError =>
      (1, LogMessage (wstr "Insufficient arguments provided.")
        (w.emit (.stderr (wstr "Usage: ServiceUIClone.exe [/wait] <command line to launch>"))))
    | .emptyCommand =>
      (1, LogMessage (wstr "Empty command line after trimming.")
        (w.emit (.stderr (wstr "Error: The command line is empty after trimming."))))
    | .commandTooLong =>
      (1, LogMessage (wstr "Command line too long.")
        (w.emit (.stderr (wstr "Error: Command line exceeds maximum allowed length."))))
    | .ok waitForProcess commandLine => pipeline os waitForProcess commandLine w
  ⟨r.1, r.2.trace⟩

/-! ## Notions used to state the properties -/

/-- Membership in the character set of `Trim`. -/
def isWhitespace (c : Char) : Bool := whitespace.contains c

/-- Trimming as the specification words it: drop the leading run of whitespace, then the
trailing run; nothing else is touched. -/
def trimSpec (s : WString) : WString := (s.dropWhile isWhitespace).rdropWhile isWhitespace

/-- Joining as the specification words it: the strings in order, one space between each two
neighbours. -/
def joinWithSpaces : List WString → WString
  | [] => []
  | [a] => a
  | a :: b :: rest => a ++ ' ' :: joinWithSpaces (b :: rest)

/-- The arguments `argv[argStart], ..., argv[argc-1]` that remain after the optional flag. -/
def remainingArgs (argv : List WString) : List WString := argv.drop (parseWait argv).2

/-- The command line `_tmain` holds after `commandLine = Trim(commandLine)`. -/
def trimmedCommandLine (argv : List WString) : WString :=
  Trim (combineArgs argv (parseWait argv).2)

/-- The event is a call into the operating system (anything but console and log output). -/
def Event.isOSCall : Event → Bool
  | .stderr _ => false
  | .stdout _ => false
  | .log _ => false
  | _ => true

/-- A privilege the token holds: the three calls succeed and leave `ERROR_SUCCESS`. -/
def heldPrivilege : PrivilegeOutcome := ⟨.ok, .ok, .ok, 0⟩

/-- A privilege the token does not hold: `AdjustTokenPrivileges` returns `TRUE` and leaves
`ERROR_NOT_ALL_ASSIGNED` (1300). -/
def missingPrivilege : PrivilegeOutcome := ⟨.ok, .ok, .ok, 1300⟩

/-- An operating system on which every call of the launcher succeeds: console session 1, child
process 4242, which exits with status 7. -/
def allSucceed : OS where
  initialLastError := 0
  formatMessage := fun _ => none
  impersonateSelf := .ok
  activeConsoleSessionId := 1
  openProcessToken := .ok
  duplicateTokenEx := .ok
  revertToSelf := .ok
  setTokenInformation := .ok
  privilege := fun _ => heldPrivilege
  createProcessAsUser := .ok
  processId := 4242
  waitForSingleObject := 0
  waitLastError := 0
  getExitCodeProcess := .ok
  childExitCode := 7

/-- As `allSucceed`, but `GetExitCodeProcess` fails (with `ERROR_INVALID_HANDLE`). -/
def exitQueryFails : OS := { allSucceed with getExitCodeProcess := .fail 6 }

/-- As `allSucceed`, but `DuplicateTokenEx` fails (with `ERROR_ACCESS_DENIED`). -/
def duplicationFails : OS := { allSucceed with duplicateTokenEx := .fail 5 }

/-- As `allSucceed`, but the process token does not hold `SeTcbPrivilege`. -/
def tcbMissing : OS :=
  { allSucceed with
    privilege := fun n => if n = SE_TCB_NAME then missingPrivilege else heldPrivilege }

/-- As `allSucceed`, but the process token holds none of the three privileges. -/
def noPrivileges : OS := { allSucceed with privilege := fun _ => missingPrivilege }

/-! ## Observations on traces -/

/-- The event is a successful call that hands the launcher a handle to `r`. -/
def Event.acquires (r : Resource) : Event → Bool
  | .openProcessToken target ok => ok && decide (target = r)
  | .duplicateTokenEx _ ok => ok && decide (r = .duplicateToken)
  | .createProcessAsUser _ _ ok => ok && decide (r = .childProcess ∨ r = .childThread)
  | _ => false

/-- The event is a `CloseHandle` on a handle to `r`. -/
def Event.releases (r : Resource) : Event → Bool
  | .closeHandle (.valid r') => decide (r' = r)
  | _ => false

/-- Number of times a handle to `r` is acquired in the trace. -/
def acquired (t : List Event) (r : Resource) : Nat := t.countP (Event.acquires r)

/-- Number of times a handle to `r` is closed in the trace. -/
def released (t : List Event) (r : Resource) : Nat := t.countP (Event.releases r)

/-- The value returned by `EnablePrivilege os privilegeName`. -/
def privilegeEnabled (os : OS) (privilegeName : WString) : Bool :=
  (EnablePrivilege os privilegeName ⟨0, []⟩).1

/-- The events of `EnablePrivilege os privilegeName`. -/
def privilegeEvents (os : OS) (privilegeName : WString) : List Event :=
  (EnablePrivilege os privilegeName ⟨0, []⟩).2.trace

/-- The last-error value left by `EnablePrivilege os privilegeName`. -/
def privilegeLastError (os : OS) (privilegeName : WString) : Nat :=
  (EnablePrivilege os privilegeName ⟨0, []⟩).2.lastError

/-- The events of `launchAndWait` entered with last-error value `e`. -/
def launchEvents (os : OS) (waitForProcess : Bool) (commandLine : WString) (sessionId : Nat)
    (hProcessToken hDupToken : HandleWrapper) (e : Nat) : List Event :=
  (launchAndWait os waitForProcess commandLine sessionId hProcessToken hDupToken ⟨e, []⟩).2.trace

/-- The events of `enablePrivileges` (and of the stages after it). -/
def enableEvents (os : OS) (waitForProcess : Bool) (commandLine : WString) (sessionId : Nat)
    (hProcessToken hDupToken : HandleWrapper) : List Event :=
  (enablePrivileges os waitForProcess commandLine sessionId hProcessToken hDupToken
    ⟨0, []⟩).2.trace

/-- The events of `forgeToken` (and of the stages after it) entered with last-error value
`e`. -/
def forgeEvents (os : OS) (waitForProcess : Bool) (commandLine : WString) (sessionId : Nat)
    (e : Nat) : List Event :=
  (forgeToken os waitForProcess commandLine sessionId ⟨e, []⟩).2.trace

/-- Place of the privilege named `privilegeName` among the steps of `_tmain` (0 when
`_tmain` does not enable it). -/
def privilegePosition (privilegeName : WString) : Nat :=
  if privilegeName = SE_INCREASE_QUOTA_NAME then 7
  else if privilegeName = SE_ASSIGNPRIMARYTOKEN_NAME then 8
  else if privilegeName = SE_TCB_NAME then 9
  else 0

/-- Place of a call in the program order of `_tmain`: `ImpersonateSelf` 1, the session query
2, `OpenProcessToken` 3, `DuplicateTokenEx` 4, `RevertToSelf` 5, `SetTokenInformation` 6, the
calls of the three `EnablePrivilege` 7, 8 and 9, `CreateProcessAsUser` 10, the wait 11, the
exit code query 12.  Output and `CloseHandle` have place 0. -/
def Event.position : Event → Nat
  | .impersonateSelf => 1
  | .wtsGetActiveConsoleSessionId => 2
  | .openProcessToken .processToken _ => 3
  | .duplicateTokenEx _ _ => 4
  | .revertToSelf => 5
  | .setTokenInformation _ _ => 6
  | .openProcessToken (.privilegeToken n) _ => privilegePosition n
  | .lookupPrivilegeValue n => privilegePosition n
  | .adjustTokenPrivileges (.valid (.privilegeToken n)) => privilegePosition n
  | .createProcessAsUser _ _ _ => 10
  | .waitForSingleObject _ => 11
  | .getExitCodeProcess _ => 12
  | _ => 0

/-- The steps of a run whose failure is fatal. -/
inductive Step where
  | commandAssembly
  | selfImpersonation
  | sessionResolution
  | tokenOpening
  | tokenDuplication
  | sessionRebinding
  | enableIncreaseQuota
  | enableAssignPrimaryToken
  | enableTcb
  | processCreation
  deriving DecidableEq, Repr, Fintype

/-- Place of a step in the program order (the numbering of `Event.position`). -/
def Step.position : Step → Nat
  | .commandAssembly => 0
  | .selfImpersonation => 1
  | .sessionResolution => 2
  | .tokenOpening => 3
  | .tokenDuplication => 4
  | .sessionRebinding => 6
  | .enableIncreaseQuota => 7
  | .enableAssignPrimaryToken => 8
  | .enableTcb => 9
  | .processCreation => 10

/-- The step fails under `os` on the arguments `argv`: what the test guarding its
`return 1` evaluates to. -/
def Step.fails (os : OS) (argv : List WString) : Step → Bool
  | .commandAssembly =>
    match assemble argv with
    | .ok _ _ => false
    | _ => true
  | .selfImpersonation => !os.impersonateSelf.succeeded
  | .sessionResolution => decide (os.activeConsoleSessionId % 2 ^ 32 = 0xFFFFFFFF)
  | .tokenOpening => !os.openProcessToken.succeeded
  | .tokenDuplication => !os.duplicateTokenEx.succeeded
  | .sessionRebinding => !os.setTokenInformation.succeeded
  | .enableIncreaseQuota => !privilegeEnabled os SE_INCREASE_QUOTA_NAME
  | .enableAssignPrimaryToken => !privilegeEnabled os SE_ASSIGNPRIMARYTOKEN_NAME
  | .enableTcb => !privilegeEnabled os SE_TCB_NAME
  | .processCreation => !os.createProcessAsUser.succeeded

/-- The places of the calls of a trace, in the order in which the calls are made (output and
`CloseHandle` left out). -/
def callPositions (t : List Event) : List Nat := (t.map Event.position).filter (· ≠ 0)

/-- The messages handed to `LogMessage` in a trace, in order. -/
def logged (t : List Event) : List WString :=
  t.filterMap fun e =>
    match e with
    | .log msg => some msg
    | _ => none

/-- Two traces are equal up to one block of console and log output: they share what comes
before the block and what comes after it, and the blocks hold no call into the operating
system. -/
def differInOutputOnly (t t' : List Event) : Prop :=
  ∃ pre d d' post, t = pre ++ d ++ post ∧ t' = pre ++ d' ++ post ∧
    (∀ e ∈ d, e.isOSCall = false) ∧ (∀ e ∈ d', e.isOSCall = false)

/-- The operating system `os` with the answer of `RevertToSelf` replaced by `r`; every other
answer is kept. -/
def OS.withRevert (os : OS) (r : Win32Result) : OS := { os with revertToSelf := r }

/-- As `allSucceed`, but `RevertToSelf` fails (with `ERROR_ACCESS_DENIED`). -/
def revertFails : OS := { allSucceed with revertToSelf := .fail 5 }

/-- As `allSucceed`, but the wait returns `WAIT_ABANDONED` (0x80) instead of
`WAIT_OBJECT_0`. -/
def waitAbandoned : OS := { allSucceed with waitForSingleObject := 0x80 }

end ServiceUIClone

namespace BitLockerPINUI

/-!
# BitLockerPINUI: the PIN dialog

The dialog program (`BitLockerPINUI.cpp`) reads two edit fields, validates the text and hands
it to WMI.  The embedding covers `ValidatePIN`, `SetBitLockerPinWMI` and the `Set PIN` branch
of `WindowProc`.  Every COM call is answered by a `WMI` record of outcomes, and the log
messages, message boxes and COM calls are collected in a list of `Event`s in program order.
The `Release`, `VariantClear`, `SysFreeString` and `CoUninitialize` calls of the cleanup paths
produce no output and are not recorded.  Strings are as in the launcher: a `std::wstring` is
a list of characters.
-/

open ServiceUIClone (WString wstr)

/-! ## `ValidatePIN` -/

/-- The C library test `iswdigit`: true exactly for the ten decimal digits `0` to `9`, as the
C standard requires. -/
def iswdigit (ch : Char) : Bool := ch.isDigit

/-- The loop of `ValidatePIN`: `for (wchar_t ch : pin) if (!iswdigit(ch)) return false;`
followed by `return true`. -/
def ValidatePIN.loop : WString → Bool
  | [] => true
  | ch :: rest => if !iswdigit ch then false else ValidatePIN.loop rest

/-- `ValidatePIN` (lines 95-105). -/
def ValidatePIN (pin : WString) : Bool :=
  if pin.length < 8 || pin.length > 20 then false
  else ValidatePIN.loop pin

/-! ## The WMI calls -/

/-- An `HRESULT`: a signed 32-bit value. -/
abbrev HRESULT := Int

/-- The Windows test `FAILED(hr)`: the value is negative. -/
def FAILED (hr : HRESULT) : Bool := decide (hr < 0)

/-- The Windows test `SUCCEEDED(hr)`: the value is not negative. -/
def SUCCEEDED (hr : HRESULT) : Bool := decide (0 ≤ hr)

/-- The variant type tag `VT_I4`. -/
def VT_I4 : Nat := 3

/-- The stages of `SetBitLockerPinWMI`, in program order: its fourteen COM calls and the
reading of the method's return value. -/
inductive Stage where
  | coInitializeEx
  | coInitializeSecurity
  | coCreateInstance
  | connectServer
  | coSetProxyBlanket
  | execQuery
  | next
  | getPath
  | getObject
  | getMethod
  | spawnInstance
  | putKeyProtectorType
  | putPin
  | execMethod
  | getReturnValue
  deriving DecidableEq, Repr, Fintype

/-- The answers of COM and WMI to the calls of `SetBitLockerPinWMI`, one per call site:
the `HRESULT` of each call, the count `uReturn` stored by `IEnumWbemClassObject::Next`, and
the type tag and integer of the variant read from `ReturnValue`. -/
structure WMI where
  coInitializeEx : HRESULT
  coInitializeSecurity : HRESULT
  coCreateInstance : HRESULT
  connectServer : HRESULT
  coSetProxyBlanket : HRESULT
  execQuery : HRESULT
  next : HRESULT
  uReturn : Nat
  getPath : HRESULT
  getObject : HRESULT
  getMethod : HRESULT
  spawnInstance : HRESULT
  putKeyProtectorType : HRESULT
  putPin : HRESULT
  execMethod : HRESULT
  getReturnValue : HRESULT
  returnVt : Nat
  returnIntVal : Int

/-- What the program does that can be observed from outside: a message handed to
`LogMessage`, a `MessageBox` with its text and caption, a COM call, and the call
`pInParams->Put(L"Pin", ...)` with the variant holding `pin`. -/
inductive Event where
  | log (msg : WString)
  | messageBox (text caption : WString)
  | call (stage : Stage)
  | putPin (pin : WString)
  deriving DecidableEq, Repr

/-- `LogMessage`: the message handed to the log file (the time stamp and the best-effort file
write are not modelled). -/
def LogMessage (msg : WString) (t : List Event) : List Event := t ++ [.log msg]

/-- `SetBitLockerPinWMI` (lines 112-319): the value returned and the events, in order. -/
def SetBitLockerPinWMI (wmi : WMI) (pin : WString) : Bool × List Event :=
  let t := [Event.call .coInitializeEx]
  if FAILED wmi.coInitializeEx then (false, LogMessage (wstr "CoInitializeEx failed.") t)
  else
  let t := t ++ [.call .coInitializeSecurity]
  if FAILED wmi.coInitializeSecurity then
    (false, LogMessage (wstr "CoInitializeSecurity failed.") t)
  else
  let t := t ++ [.call .coCreateInstance]
  if FAILED wmi.coCreateInstance then
    (false, LogMessage (wstr "Failed to create IWbemLocator object.") t)
  else
  let t := t ++ [.call .connectServer]
  if FAILED wmi.connectServer then
    (false, LogMessage (wstr "Could not connect to WMI namespace.") t)
  else
  let t := t ++ [.call .coSetProxyBlanket]
  if FAILED wmi.coSetProxyBlanket then (false, LogMessage (wstr "CoSetProxyBlanket failed.") t)
  else
  let t := t ++ [.call .execQuery]
  if FAILED wmi.execQuery then
    (false, LogMessage (wstr "Query for Win32_EncryptableVolume failed.") t)
  else
  let t := t ++ [.call .next]
  if FAILED wmi.next || wmi.uReturn % 2 ^ 32 == 0 then
    (false, LogMessage (wstr "No BitLocker volume found for drive C:.") t)
  else
  let t := t ++ [.call .getPath]
  if FAILED wmi.getPath then (false, LogMessage (wstr "Failed to get volume __PATH.") t)
  else
  let t := t ++ [.call .getObject]
  if FAILED wmi.getObject then
    (false, LogMessage (wstr "Failed to get Win32_EncryptableVolume class definition.") t)
  else
  let t := t ++ [.call .getMethod]
  if FAILED wmi.getMethod then
    (false, LogMessage (wstr "Failed to retrieve AddKeyProtector method definition.") t)
  else
  let t := t ++ [.call .spawnInstance]
  if FAILED wmi.spawnInstance then
    (false, LogMessage (wstr "Failed to spawn AddKeyProtector input params instance.") t)
  else
  let t := t ++ [.call .putKeyProtectorType]
  if FAILED wmi.putKeyProtectorType then
    (false, LogMessage (wstr "Failed to set KeyProtectorType.") t)
  else
  let t := t ++ [.putPin pin]
  if FAILED wmi.putPin then (false, LogMessage (wstr "Failed to set Pin parameter.") t)
  else
  let t := t ++ [.call .execMethod]
  if SUCCEEDED wmi.execMethod then
    let t := t ++ [.call .getReturnValue]
    if SUCCEEDED wmi.getReturnValue && wmi.returnVt == VT_I4 && wmi.returnIntVal == 0 then
      (true, t)
    else (false, t)
  else (false, LogMessage (wstr "ExecMethod for AddKeyProtector failed.") t)

/-! ## The `Set PIN` button -/

/-- Model of `GetWindowText(hWnd, buf, nMaxCount)` followed by `std::wstring(buf)`: the text of
the control, cut to the `nMaxCount - 1` characters that fit before the terminating NUL. -/
def GetWindowText (text : WString) (nMaxCount : Nat) : WString := text.take (nMaxCount - 1)

/-- The `IDC_BUTTON_SETPIN` branch of `WindowProc` (lines 422-464), for the texts
`newPinText` and `rePinText` of the two edit fields: the events, in order. -/
def WindowProc_IDC_BUTTON_SETPIN (wmi : WMI) (newPinText rePinText : WString) : List Event :=
  let bufferSize := 256
  let pin1 := GetWindowText newPinText bufferSize
  let pin2 := GetWindowText rePinText bufferSize
  let t := LogMessage (wstr "Set PIN clicked (PIN entered).") []
  if pin1.isEmpty || pin2.isEmpty then
    LogMessage (wstr "Error: One or both PIN fields are empty.")
      (t ++ [.messageBox (wstr "Both PIN fields must be filled in.") (wstr "Input Error")])
  else if pin1 ≠ pin2 then
    LogMessage (wstr "Error: PINs do not match.")
      (t ++ [.messageBox (wstr "The PINs do not match. Please try again.")
        (wstr "Input Error")])
  else if !ValidatePIN pin1 then
    LogMessage (wstr "Error: PIN validation failed.")
      (t ++ [.messageBox (wstr "PIN must be numeric and 8–20 digits long.")
        (wstr "Input Error")])
  else
    let r := SetBitLockerPinWMI wmi pin1
    if r.1 then
      LogMessage (wstr "BitLocker PIN set successfully.")
        (t ++ r.2 ++ [.messageBox (wstr "BitLocker PIN set successfully.") (wstr "Success")])
    else
      LogMessage (wstr "Failed to set BitLocker PIN.")
        (t ++ r.2 ++ [.messageBox
          (wstr "Failed to set BitLocker PIN. Check privileges and BitLocker status.")
          (wstr "Error")])

/-! ## Observations on runs of the dialog -/

/-- The messages handed to `LogMessage` in a list of events, in order. -/
def logMessages (t : List Event) : List WString :=
  t.filterMap fun e =>
    match e with
    | .log msg => some msg
    | _ => none

/-- The stage fails under `wmi`: what the test guarding its failure branch evaluates to. -/
def Stage.failed (wmi : WMI) : Stage → Bool
  | .coInitializeEx => FAILED wmi.coInitializeEx
  | .coInitializeSecurity => FAILED wmi.coInitializeSecurity
  | .coCreateInstance => FAILED wmi.coCreateInstance
  | .connectServer => FAILED wmi.connectServer
  | .coSetProxyBlanket => FAILED wmi.coSetProxyBlanket
  | .execQuery => FAILED wmi.execQuery
  | .next => FAILED wmi.next || wmi.uReturn % 2 ^ 32 == 0
  | .getPath => FAILED wmi.getPath
  | .getObject => FAILED wmi.getObject
  | .getMethod => FAILED wmi.getMethod
  | .spawnInstance => FAILED wmi.spawnInstance
  | .putKeyProtectorType => FAILED wmi.putKeyProtectorType
  | .putPin => FAILED wmi.putPin
  | .execMethod => !SUCCEEDED wmi.execMethod
  | .getReturnValue =>
    !(SUCCEEDED wmi.getReturnValue && wmi.returnVt == VT_I4 && wmi.returnIntVal == 0)

/-- The stages in program order. -/
def Stage.order : List Stage :=
  [.coInitializeEx, .coInitializeSecurity, .coCreateInstance, .connectServer,
    .coSetProxyBlanket, .execQuery, .next, .getPath, .getObject, .getMethod, .spawnInstance,
    .putKeyProtectorType, .putPin, .execMethod, .getReturnValue]

/-- The first stage that fails under `wmi`, if any: the outcome of a submission. -/
def firstFailure (wmi : WMI) : Option Stage := Stage.order.find? (Stage.failed wmi)

/-- The fixed text logged when a submission stops at `stage`; a return value that is not zero
is not logged by `SetBitLockerPinWMI`. -/
def Stage.failureLog : Stage → List WString
  | .coInitializeEx => [wstr "CoInitializeEx failed."]
  | .coInitializeSecurity => [wstr "CoInitializeSecurity failed."]
  | .coCreateInstance => [wstr "Failed to create IWbemLocator object."]
  | .connectServer => [wstr "Could not connect to WMI namespace."]
  | .coSetProxyBlanket => [wstr "CoSetProxyBlanket failed."]
  | .execQuery => [wstr "Query for Win32_EncryptableVolume failed."]
  | .next => [wstr "No BitLocker volume found for drive C:."]
  | .getPath => [wstr "Failed to get volume __PATH."]
  | .getObject => [wstr "Failed to get Win32_EncryptableVolume class definition."]
  | .getMethod => [wstr "Failed to retrieve AddKeyProtector method definition."]
  | .spawnInstance => [wstr "Failed to spawn AddKeyProtector input params instance."]
  | .putKeyProtectorType => [wstr "Failed to set KeyProtectorType."]
  | .putPin => [wstr "Failed to set Pin parameter."]
  | .execMethod => [wstr "ExecMethod for AddKeyProtector failed."]
  | .getReturnValue => []

/-- The fixed texts logged by a submission with the given outcome. -/
def submissionLog : Option Stage → List WString
  | none => []
  | some stage => stage.failureLog

/-- The outcomes of a click on `Set PIN`. -/
inductive Outcome where
  | fieldEmpty
  | mismatch
  | validationFailed
  | submissionSucceeded
  | submissionFailed (stage : Stage)
  deriving DecidableEq, Repr

/-- The outcome of a click on `Set PIN` with the texts `newPinText` and `rePinText` in the two
fields, under `wmi`. -/
def outcome (wmi : WMI) (newPinText rePinText : WString) : Outcome :=
  if GetWindowText newPinText 256 = [] ∨ GetWindowText rePinText 256 = [] then .fieldEmpty
  else if GetWindowText newPinText 256 ≠ GetWindowText rePinText 256 then .mismatch
  else if ValidatePIN (GetWindowText newPinText 256) = false then .validationFailed
  else
    match firstFailure wmi with
    | none => .submissionSucceeded
    | some stage => .submissionFailed stage

/-- The fixed texts logged by a click on `Set PIN` with the given outcome. -/
def outcomeLog : Outcome → List WString
  | .fieldEmpty =>
    [wstr "Set PIN clicked (PIN entered).", wstr "Error: One or both PIN fields are empty."]
  | .mismatch => [wstr "Set PIN clicked (PIN entered).", wstr "Error: PINs do not match."]
  | .validationFailed =>
    [wstr "Set PIN clicked (PIN entered).", wstr "Error: PIN validation failed."]
  | .submissionSucceeded =>
    [wstr "Set PIN clicked (PIN entered).", wstr "BitLocker PIN set successfully."]
  | .submissionFailed stage =>
    wstr "Set PIN clicked (PIN entered)." :: stage.failureLog
      ++ [wstr "Failed to set BitLocker PIN."]

/-- The string `t` starts with `n` characters that are all decimal digits. -/
def digitRunAt (n : Nat) (t : WString) : Bool := decide (n ≤ t.length) && (t.take n).all iswdigit

/-- The string `m` has `n` decimal digits in a row somewhere. -/
def hasDigitRun (n : Nat) (m : WString) : Bool := m.tails.any (digitRunAt n)

/-- A COM oracle under which every stage succeeds and the method returns 0. -/
def wmiSucceeds : WMI where
  coInitializeEx := 0
  coInitializeSecurity := 0
  coCreateInstance := 0
  connectServer := 0
  coSetProxyBlanket := 0
  execQuery := 0
  next := 0
  uReturn := 1
  getPath := 0
  getObject := 0
  getMethod := 0
  spawnInstance := 0
  putKeyProtectorType := 0
  putPin := 0
  execMethod := 0
  getReturnValue := 0
  returnVt := 3
  returnIntVal := 0

/-- As `wmiSucceeds`, but `ExecMethod` fails (with `WBEM_E_ACCESS_DENIED`). -/
def execMethodFails : WMI := { wmiSucceeds with execMethod := -2147217405 }

end BitLockerPINUI

namespace ServiceUIClone

/-! ## Lemmas on the string helpers -/

theorem find_first_not_of_append_ws (pre rest : WString)
    (h : ∀ c ∈ pre, isWhitespace c = true) :
    find_first_not_of (pre ++ rest) whitespace
      = (find_first_not_of rest whitespace).map (· + pre.length) := by
  induction pre with
  | nil => simp
  | cons c pre ih =>
    have hc : whitespace.contains c = true := h c (List.mem_cons_self _ _)
    have ih2 := ih (fun d hd => h d (List.mem_cons_of_mem _ hd))
    show find_first_not_of (c :: (pre ++ rest)) whitespace = _
    rw [find_first_not_of, if_pos hc, ih2, Option.map_map]
    congr 1

theorem find_first_not_of_cons_not_ws (c : Char) (rest : WString)
    (h : isWhitespace c = false) : find_first_not_of (c :: rest) whitespace = some 0 := by
  have hc : ¬ whitespace.contains c = true := by
    rw [show whitespace.contains c = false from h]; simp
  rw [find_first_not_of, if_neg hc]

theorem find_first_not_of_all_ws (s : WString) (h : ∀ c ∈ s, isWhitespace c = true) :
    find_first_not_of s whitespace = none := by
  have := find_first_not_of_append_ws s [] h
  simpa [find_first_not_of] using this

theorem find_last_not_of_all_ws (s : WString) (h : ∀ c ∈ s, isWhitespace c = true) :
    find_last_not_of s whitespace = none := by
  induction s with
  | nil => rfl
  | cons c s ih =>
    have hc : whitespace.contains c = true := h c (List.mem_cons_self _ _)
    rw [find_last_not_of, ih (fun d hd => h d (List.mem_cons_of_mem _ hd))]
    simp only [hc, if_true]

theorem find_last_not_of_append_ws (xs post : WString)
    (h : ∀ c ∈ post, isWhitespace c = true) :
    find_last_not_of (xs ++ post) whitespace = find_last_not_of xs whitespace := by
  induction xs with
  | nil => simpa [find_last_not_of] using find_last_not_of_all_ws post h
  | cons c xs ih =>
    show find_last_not_of (c :: (xs ++ post)) whitespace = _
    rw [find_last_not_of, ih, find_last_not_of]

theorem find_last_not_of_concat_not_ws (xs : WString) (c : Char)
    (h : isWhitespace c = false) :
    find_last_not_of (xs ++ [c]) whitespace = some xs.length := by
  have hc : ¬ whitespace.contains c = true := by
    rw [show whitespace.contains c = false from h]; simp
  induction xs with
  | nil =>
    show find_last_not_of [c] whitespace = _
    rw [find_last_not_of, find_last_not_of]
    simp only [if_neg hc, List.length_nil]
  | cons d xs ih =>
    show find_last_not_of (d :: (xs ++ [c])) whitespace = _
    rw [find_last_not_of, ih]
    rfl

/-- On a whitespace prefix, a core ending in a character `z` that is not whitespace and
starting with one, and a whitespace suffix, the two searches find the ends of the core. -/
theorem find_not_of_core (pre init post : WString) (z : Char)
    (hpre : ∀ c ∈ pre, isWhitespace c = true) (hpost : ∀ c ∈ post, isWhitespace c = true)
    (hhead : ∀ c ∈ (init ++ [z]).head?, isWhitespace c = false)
    (hz : isWhitespace z = false) :
    find_first_not_of (pre ++ (init ++ [z]) ++ post) whitespace = some pre.length ∧
    find_last_not_of (pre ++ (init ++ [z]) ++ post) whitespace
      = some (pre.length + init.length) := by
  constructor
  · rw [List.append_assoc, find_first_not_of_append_ws _ _ hpre]
    cases init with
    | nil => simp [find_first_not_of_cons_not_ws _ _ hz]
    | cons a init =>
      have ha : isWhitespace a = false := hhead a (by simp)
      simp [find_first_not_of_cons_not_ws _ _ ha]
  · rw [find_last_not_of_append_ws _ _ hpost, ← List.append_assoc,
      find_last_not_of_concat_not_ws _ _ hz]
    simp

/-- `Trim` on a string split into a whitespace prefix, a core that neither starts nor ends
with whitespace, and a whitespace suffix returns the core. -/
theorem Trim_decomposition (pre t post : WString)
    (hpre : ∀ c ∈ pre, isWhitespace c = true) (hpost : ∀ c ∈ post, isWhitespace c = true)
    (hhead : ∀ c ∈ t.head?, isWhitespace c = false)
    (hlast : ∀ c ∈ t.getLast?, isWhitespace c = false) :
    Trim (pre ++ t ++ post) = t := by
  rcases List.eq_nil_or_concat t with rfl | ⟨init, z, rfl⟩
  · have hall : ∀ c ∈ pre ++ [] ++ post, isWhitespace c = true := by
      intro c hc
      simp at hc
      rcases hc with hc | hc
      · exact hpre c hc
      · exact hpost c hc
    simp only [Trim, find_first_not_of_all_ws _ hall]
  · rw [List.concat_eq_append] at hhead hlast ⊢
    have hz : isWhitespace z = false := hlast z (by simp)
    obtain ⟨hfirst, hlast2⟩ := find_not_of_core pre init post z hpre hpost hhead hz
    simp only [Trim, hfirst, hlast2, substr]
    have e : pre.length + init.length - pre.length + 1 = (init ++ [z]).length := by simp
    rw [e, List.append_assoc, List.drop_left, List.take_left]

theorem rdropWhile_append_rtakeWhile (p : Char → Bool) (l : WString) :
    l.rdropWhile p ++ l.rtakeWhile p = l := by
  simp [List.rdropWhile, List.rtakeWhile, ← List.reverse_append]

theorem trimSpec_head (s : WString) : ∀ c ∈ (trimSpec s).head?, isWhitespace c = false := by
  intro c hc
  obtain ⟨rest, hrest⟩ := List.rdropWhile_prefix isWhitespace (l := s.dropWhile isWhitespace)
  have hd : (s.dropWhile isWhitespace).head? = some c := by
    unfold trimSpec at hc
    rw [← hrest]
    cases ht : List.rdropWhile isWhitespace (List.dropWhile isWhitespace s) with
    | nil => rw [ht] at hc; simp at hc
    | cons a t => rw [ht] at hc; simpa using hc
  have := List.head?_dropWhile_not isWhitespace s
  rw [hd] at this
  simpa using this

theorem trimSpec_getLast (s : WString) :
    ∀ c ∈ (trimSpec s).getLast?, isWhitespace c = false := by
  intro c hc
  unfold trimSpec at hc
  by_cases hl : (s.dropWhile isWhitespace).rdropWhile isWhitespace = []
  · rw [hl] at hc; simp at hc
  · have := List.rdropWhile_last_not isWhitespace (s.dropWhile isWhitespace) hl
    rw [List.getLast?_eq_getLast _ hl] at hc
    simp only [Option.mem_def, Option.some.injEq] at hc
    rw [← hc]
    simpa using this

/-- `Trim` removes exactly the leading and the trailing run of whitespace. -/
theorem Trim_eq_trimSpec (s : WString) : Trim s = trimSpec s := by
  have h1 : s = s.takeWhile isWhitespace ++ trimSpec s
      ++ (s.dropWhile isWhitespace).rtakeWhile isWhitespace := by
    rw [List.append_assoc]
    unfold trimSpec
    rw [rdropWhile_append_rtakeWhile, List.takeWhile_append_dropWhile]
  conv_lhs => rw [h1]
  exact Trim_decomposition _ _ _ (fun c hc => List.mem_takeWhile_imp hc)
    (fun c hc => List.mem_rtakeWhile_imp hc) (trimSpec_head s) (trimSpec_getLast s)

/-- Once `find_first_not_of` has found a character, `find_last_not_of` finds one at or after
it: inside `Trim`, `end` is not `npos` and `end - start + 1` does not wrap. -/
theorem find_last_not_of_isSome (s : WString) (start : Nat)
    (h : find_first_not_of s whitespace = some start) :
    ∃ end_, find_last_not_of s whitespace = some end_ ∧ start ≤ end_ ∧ end_ < s.length := by
  have hs : s = s.takeWhile isWhitespace ++ trimSpec s
      ++ (s.dropWhile isWhitespace).rtakeWhile isWhitespace := by
    rw [List.append_assoc]
    unfold trimSpec
    rw [rdropWhile_append_rtakeWhile, List.takeWhile_append_dropWhile]
  have hpre : ∀ c ∈ s.takeWhile isWhitespace, isWhitespace c = true :=
    fun c hc => List.mem_takeWhile_imp hc
  have hpost : ∀ c ∈ (s.dropWhile isWhitespace).rtakeWhile isWhitespace,
      isWhitespace c = true := fun c hc => List.mem_rtakeWhile_imp hc
  rcases List.eq_nil_or_concat (trimSpec s) with ht | ⟨init, z, ht⟩
  · exfalso
    have hall : ∀ c ∈ s, isWhitespace c = true := by
      intro c hc
      rw [hs, ht] at hc
      simp only [List.append_nil, List.mem_append] at hc
      rcases hc with hc | hc
      · exact hpre c hc
      · exact hpost c hc
    rw [find_first_not_of_all_ws s hall] at h
    exact Option.noConfusion h
  · rw [List.concat_eq_append] at ht
    have hhead := trimSpec_head s
    have hlast := trimSpec_getLast s
    rw [ht] at hhead hlast
    have hz : isWhitespace z = false := hlast z (by simp)
    obtain ⟨hfirst, hlast2⟩ := find_not_of_core _ init _ z hpre hpost hhead hz
    rw [← ht, ← hs] at hfirst hlast2
    rw [hfirst] at h
    refine ⟨_, hlast2, ?_, ?_⟩
    · have := Option.some.inj h
      omega
    · have hlen := congrArg List.length hs
      rw [ht] at hlen
      simp only [List.length_append, List.length_singleton] at hlen
      omega

/-! ## Frame lemmas: how the primitives and the stages act on the world -/

@[simp] theorem World.emit_trace (w : World) (e : Event) :
    (w.emit e).trace = w.trace ++ [e] := rfl

@[simp] theorem World.emit_lastError (w : World) (e : Event) :
    (w.emit e).lastError = w.lastError := rfl

@[simp] theorem World.call_fst (w : World) (e : Event) (r : Win32Result) :
    (w.call e r).1 = r.succeeded := by
  cases r <;> rfl

@[simp] theorem World.call_trace (w : World) (e : Event) (r : Win32Result) :
    (w.call e r).2.trace = w.trace ++ [e] := by
  cases r <;> rfl

@[simp] theorem World.call_lastError (w : World) (e : Event) (r : Win32Result) :
    (w.call e r).2.lastError = r.lastErrorAfter w.lastError := rfl

@[simp] theorem LogMessage_trace (msg : WString) (w : World) :
    (LogMessage msg w).trace = w.trace ++ [.log msg] := rfl

@[simp] theorem LogMessage_lastError (msg : WString) (w : World) :
    (LogMessage msg w).lastError = w.lastError := rfl

@[simp] theorem PrintError_trace (os : OS) (msg : WString) (w : World) :
    (PrintError os msg w).trace
      = w.trace ++ [.stderr (errorLine os msg w.lastError),
          .log (errorLine os msg w.lastError)] := by
  simp [PrintError]

@[simp] theorem PrintError_lastError (os : OS) (msg : WString) (w : World) :
    (PrintError os msg w).lastError = w.lastError := rfl

@[simp] theorem CloseHandle_trace (h : HANDLE) (w : World) :
    (CloseHandle h w).trace = w.trace ++ [.closeHandle h] := rfl

@[simp] theorem CloseHandle_lastError (h : HANDLE) (w : World) :
    (CloseHandle h w).lastError = w.lastError := rfl

@[simp] theorem destroy_trace (hw : HandleWrapper) (w : World) :
    (hw.destroy w).trace
      = w.trace ++ (if hw.handle ≠ .null ∧ hw.handle ≠ .invalid then [.closeHandle hw.handle]
          else []) := by
  unfold HandleWrapper.destroy
  split <;> simp

@[simp] theorem destroy_lastError (hw : HandleWrapper) (w : World) :
    (hw.destroy w).lastError = w.lastError := by
  unfold HandleWrapper.destroy
  split <;> simp

@[simp] theorem EnablePrivilege_trace (os : OS) (n : WString) (w : World) :
    (EnablePrivilege os n w).2.trace = w.trace ++ privilegeEvents os n := by
  unfold privilegeEvents EnablePrivilege
  generalize os.privilege n = p
  rcases p with ⟨o, l, a, e⟩
  cases o <;> cases l <;> cases a <;>
    simp [HandleWrapper.reset, HandleWrapper.get, Win32Result.succeeded]

@[simp] theorem EnablePrivilege_fst (os : OS) (n : WString) (w : World) :
    (EnablePrivilege os n w).1 = privilegeEnabled os n := by
  unfold privilegeEnabled EnablePrivilege
  generalize os.privilege n = p
  rcases p with ⟨o, l, a, e⟩
  cases o <;> cases l <;> cases a <;>
    simp [HandleWrapper.reset, HandleWrapper.get, Win32Result.succeeded]

@[simp] theorem EnablePrivilege_lastError (os : OS) (n : WString) (w : World) :
    (EnablePrivilege os n w).2.lastError = privilegeLastError os n := by
  unfold privilegeLastError EnablePrivilege
  generalize os.privilege n = p
  rcases p with ⟨o, l, a, e⟩
  cases o <;> cases l <;> cases a <;>
    simp [HandleWrapper.reset, HandleWrapper.get, Win32Result.succeeded,
      Win32Result.lastErrorAfter]

theorem launchAndWait_trace (os : OS) (wait : Bool) (cmd : WString) (sid : Nat)
    (hp hd : HandleWrapper) (w : World) :
    (launchAndWait os wait cmd sid hp hd w).2.trace
      = w.trace ++ launchEvents os wait cmd sid hp hd w.lastError := by
  unfold launchEvents launchAndWait
  simp only [World.call_fst]
  split_ifs <;> simp

theorem launchAndWait_fst (os : OS) (wait : Bool) (cmd : WString) (sid : Nat)
    (hp hd : HandleWrapper) (w w' : World) :
    (launchAndWait os wait cmd sid hp hd w).1 = (launchAndWait os wait cmd sid hp hd w').1 := by
  unfold launchAndWait
  simp only [World.call_fst]
  split_ifs <;> rfl

theorem enablePrivileges_trace (os : OS) (wait : Bool) (cmd : WString) (sid : Nat)
    (hp hd : HandleWrapper) (w : World) :
    (enablePrivileges os wait cmd sid hp hd w).2.trace
      = w.trace ++ enableEvents os wait cmd sid hp hd := by
  unfold enableEvents enablePrivileges
  simp only [EnablePrivilege_fst]
  split_ifs <;> simp [launchAndWait_trace]

theorem enablePrivileges_fst (os : OS) (wait : Bool) (cmd : WString) (sid : Nat)
    (hp hd : HandleWrapper) (w w' : World) :
    (enablePrivileges os wait cmd sid hp hd w).1
      = (enablePrivileges os wait cmd sid hp hd w').1 := by
  unfold enablePrivileges
  simp only [EnablePrivilege_fst]
  split_ifs <;> first | rfl | exact launchAndWait_fst ..

theorem forgeToken_trace (os : OS) (wait : Bool) (cmd : WString) (sid : Nat) (w : World) :
    (forgeToken os wait cmd sid w).2.trace = w.trace ++ forgeEvents os wait cmd sid w.lastError := by
  unfold forgeEvents forgeToken
  simp only [World.call_fst]
  split_ifs <;> simp [enablePrivileges_trace]

theorem forgeToken_fst (os : OS) (wait : Bool) (cmd : WString) (sid : Nat) (w w' : World) :
    (forgeToken os wait cmd sid w).1 = (forgeToken os wait cmd sid w').1 := by
  unfold forgeToken
  simp only [World.call_fst]
  split_ifs <;> first | rfl | exact enablePrivileges_fst ..

/-! ## Command assembly -/

theorem combineLoop_later (argStart : Nat) (args : List WString) :
    ∀ (i : Nat) (acc : WString), argStart < i →
      combineLoop argStart i args acc = acc ++ (args.map (fun a => ' ' :: a)).flatten := by
  induction args with
  | nil => intro i acc _; simp [combineLoop]
  | cons a rest ih =>
    intro i acc hi
    rw [combineLoop, if_pos hi, ih (i + 1) _ (Nat.lt_succ_of_lt hi)]
    simp

theorem joinWithSpaces_cons (a : WString) (rest : List WString) :
    joinWithSpaces (a :: rest) = a ++ (rest.map (fun b => ' ' :: b)).flatten := by
  induction rest generalizing a with
  | nil => simp [joinWithSpaces]
  | cons b rest ih => rw [joinWithSpaces, ih b]; simp

/-- The argument loop joins the remaining arguments with single spaces. -/
theorem combineArgs_eq_join (argv : List WString) :
    combineArgs argv (parseWait argv).2 = joinWithSpaces (remainingArgs argv) := by
  unfold combineArgs remainingArgs
  cases h : List.drop (parseWait argv).2 argv with
  | nil => rfl
  | cons a rest =>
    rw [combineLoop, if_neg (Nat.lt_irrefl _), combineLoop_later _ _ _ _ (Nat.lt_succ_self _),
      joinWithSpaces_cons]
    simp

theorem parseWait_cons (prog : WString) (args : List WString) :
    parseWait (prog :: args)
      = if args.head? = some (wstr "/wait") ∨ args.head? = some (wstr "-wait") then (true, 2)
        else (false, 1) := by
  cases args with
  | nil => simp [parseWait]
  | cons a rest => simp [parseWait]

theorem remainingArgs_cons (prog : WString) (args : List WString) :
    remainingArgs (prog :: args)
      = if (parseWait (prog :: args)).1 = true then args.tail else args := by
  unfold remainingArgs
  rw [parseWait_cons]
  split_ifs with h h' h'
  · cases args <;> simp
  · simp at h'
  · simp at h'
  · simp

theorem Trim_eq_nil_iff (s : WString) : Trim s = [] ↔ ∀ c ∈ s, isWhitespace c = true := by
  rw [Trim_eq_trimSpec, trimSpec, List.rdropWhile_eq_nil_iff]
  constructor
  · intro h
    have : List.dropWhile isWhitespace s = [] := by
      by_contra hne
      have h1 := List.head?_dropWhile_not isWhitespace s
      cases hd : List.dropWhile isWhitespace s with
      | nil => exact hne hd
      | cons a t =>
        rw [hd] at h1 h
        have := h a (List.mem_cons_self _ _)
        simp at h1
        rw [h1] at this
        exact Bool.noConfusion this
    exact List.dropWhile_eq_nil_iff.mp this
  · intro h
    rw [List.dropWhile_eq_nil_iff.mpr h]
    simp

theorem assemble_eq (argv : List WString) :
    assemble argv =
      if remainingArgs argv = [] then .usageError
      else if trimmedCommandLine argv = [] then .emptyCommand
      else if 1024 < (trimmedCommandLine argv).length then .commandTooLong
      else .ok (parseWait argv).1 (trimmedCommandLine argv) := by
  have hrem : argv.length < (parseWait argv).2 + 1 ↔ remainingArgs argv = [] := by
    unfold remainingArgs
    rw [List.drop_eq_nil_iff]
    omega
  unfold assemble trimmedCommandLine MAX_CMDLINE_LENGTH
  simp only [hrem, List.isEmpty_iff]

theorem remainingArgs_eq_nil_iff (prog : WString) (args : List WString) :
    remainingArgs (prog :: args) = [] ↔
      args = [] ∨ args = [wstr "/wait"] ∨ args = [wstr "-wait"] := by
  rw [remainingArgs_cons, parseWait_cons]
  rcases args with _ | ⟨a, _ | ⟨b, rest⟩⟩
  · simp
  · by_cases h : a = wstr "/wait" ∨ a = wstr "-wait"
    · simp [h]
    · simp [h]
  · by_cases h : a = wstr "/wait" ∨ a = wstr "-wait"
    · simp [h]
    · simp [h]

theorem tmain_usageError (os : OS) (argv : List WString) (h : assemble argv = .usageError) :
    _tmain os argv = ⟨1, [.stderr (wstr "Usage: ServiceUIClone.exe [/wait] <command line to launch>"),
      .log (wstr "Insufficient arguments provided.")]⟩ := by
  simp [_tmain, h]

theorem tmain_emptyCommand (os : OS) (argv : List WString) (h : assemble argv = .emptyCommand) :
    _tmain os argv = ⟨1, [.stderr (wstr "Error: The command line is empty after trimming."),
      .log (wstr "Empty command line after trimming.")]⟩ := by
  simp [_tmain, h]

theorem tmain_commandTooLong (os : OS) (argv : List WString)
    (h : assemble argv = .commandTooLong) :
    _tmain os argv = ⟨1, [.stderr (wstr "Error: Command line exceeds maximum allowed length."),
      .log (wstr "Command line too long.")]⟩ := by
  simp [_tmain, h]

theorem tmain_ok (os : OS) (argv : List WString) (wait : Bool) (cmd : WString)
    (h : assemble argv = .ok wait cmd) :
    _tmain os argv = ⟨(pipeline os wait cmd ⟨os.initialLastError, []⟩).1,
      (pipeline os wait cmd ⟨os.initialLastError, []⟩).2.trace⟩ := by
  simp [_tmain, h]

/-! ## Claims on command assembly -/

/-- C1.  Wait Mode is true exactly when the argument list (the arguments after the program
name) starts with the string `/wait` or `-wait`, compared as whole strings and case-sensitively
(`/WAIT` and `/wait ` do not count).  In wait mode the joined arguments are all arguments but
the first; otherwise all arguments are joined, a `/wait` in a later position included. -/
theorem C1_wait_mode (prog : WString) (args : List WString) :
    ((parseWait (prog :: args)).1 = true ↔
      ∃ rest, args = wstr "/wait" :: rest ∨ args = wstr "-wait" :: rest) ∧
    remainingArgs (prog :: args)
      = (if (parseWait (prog :: args)).1 = true then args.drop 1 else args) ∧
    combineArgs (prog :: args) (parseWait (prog :: args)).2
      = joinWithSpaces (if (parseWait (prog :: args)).1 = true then args.drop 1 else args) ∧
    (∀ wait cmd, assemble (prog :: args) = .ok wait cmd → wait = (parseWait (prog :: args)).1) ∧
    (parseWait [prog, wstr "/WAIT", wstr "x"]).1 = false ∧
    (parseWait [prog, wstr "/wait ", wstr "x"]).1 = false ∧
    assemble [prog, wstr "x", wstr "/wait", wstr "-wait"]
      = .ok false (wstr "x /wait -wait") := by
  refine ⟨?_, ?_, ?_, ?_, by rfl, by rfl, by rfl⟩
  · rw [parseWait_cons]
    cases args with
    | nil => simp
    | cons a rest =>
      by_cases h : a = wstr "/wait" ∨ a = wstr "-wait"
      · refine ⟨fun _ => ⟨rest, ?_⟩, fun _ => by simp [h]⟩
        rcases h with h | h <;> simp [h]
      · refine ⟨fun hh => by simp [h] at hh, fun ⟨r, hr⟩ => ?_⟩
        exfalso
        apply h
        rcases hr with hr | hr
        · exact Or.inl (List.cons.inj hr).1
        · exact Or.inr (List.cons.inj hr).1
  · rw [remainingArgs_cons]; simp
  · rw [combineArgs_eq_join, remainingArgs_cons]; simp
  · intro wait cmd h
    rw [assemble_eq] at h
    split_ifs at h
    exact (Assembly.ok.inj h).1.symm

/-- C2.  When validation passes, the assembled command line is the remaining arguments joined
in order with one space between neighbours, with the leading and the trailing whitespace of
the joined string removed and everything in between unchanged; it neither starts nor ends
with a whitespace character.  `notepad.exe` alone gives `notepad.exe` without wait mode, and
`/wait cmd.exe /c dir` gives `cmd.exe /c dir` in wait mode. -/
theorem C2_command_line (prog : WString) (args : List WString) (wait : Bool) (cmd : WString)
    (h : assemble (prog :: args) = .ok wait cmd) :
    cmd = trimSpec (joinWithSpaces (if wait = true then args.drop 1 else args)) ∧
    (∃ pre post, joinWithSpaces (if wait = true then args.drop 1 else args) = pre ++ cmd ++ post ∧
      (∀ c ∈ pre, isWhitespace c = true) ∧ (∀ c ∈ post, isWhitespace c = true)) ∧
    (∀ c ∈ cmd.head?, isWhitespace c = false) ∧
    (∀ c ∈ cmd.getLast?, isWhitespace c = false) ∧
    assemble [prog, wstr "notepad.exe"] = .ok false (wstr "notepad.exe") ∧
    assemble [prog, wstr "/wait", wstr "cmd.exe", wstr "/c", wstr "dir"]
      = .ok true (wstr "cmd.exe /c dir") := by
  rw [assemble_eq] at h
  split_ifs at h
  obtain ⟨hw, hc⟩ := Assembly.ok.inj h
  have hcmd : cmd = trimSpec (joinWithSpaces (if wait = true then args.drop 1 else args)) := by
    rw [← hc, trimmedCommandLine, combineArgs_eq_join, remainingArgs_cons, hw, Trim_eq_trimSpec]
    simp
  refine ⟨hcmd, ?_, ?_, ?_, by rfl, by rfl⟩
  · refine ⟨List.takeWhile isWhitespace (joinWithSpaces (if wait = true then args.drop 1 else args)),
      List.rtakeWhile isWhitespace
        (List.dropWhile isWhitespace (joinWithSpaces (if wait = true then args.drop 1 else args))),
      ?_, fun c hc => List.mem_takeWhile_imp hc, fun c hc => List.mem_rtakeWhile_imp hc⟩
    rw [hcmd, List.append_assoc]
    unfold trimSpec
    rw [rdropWhile_append_rtakeWhile, List.takeWhile_append_dropWhile]
  · rw [hcmd]; exact trimSpec_head _
  · rw [hcmd]; exact trimSpec_getLast _

/-- Witness for C2: `/wait`, then `cmd.exe` with two leading spaces, `/c`, and `dir` with a
trailing tab. -/
theorem C2_command_line_witness :
    assemble [wstr "ServiceUIClone.exe", wstr "/wait", wstr "  cmd.exe", wstr "/c", wstr "dir\t"]
      = .ok true (wstr "cmd.exe /c dir") ∧
    wstr "cmd.exe /c dir"
      = trimSpec (joinWithSpaces [wstr "  cmd.exe", wstr "/c", wstr "dir\t"]) :=
  ⟨by rfl, (C2_command_line (wstr "ServiceUIClone.exe")
    [wstr "/wait", wstr "  cmd.exe", wstr "/c", wstr "dir\t"] true (wstr "cmd.exe /c dir")
    (by rfl)).1⟩

/-- Every run of the pipeline starts by logging the command line and calling
`ImpersonateSelf`. -/
theorem pipeline_enters (os : OS) (wait : Bool) (cmd : WString) (w : World) :
    ∃ rest, (pipeline os wait cmd w).2.trace
      = w.trace ++ [.log (wstr "Command line to launch: " ++ cmd), .impersonateSelf] ++ rest := by
  unfold pipeline
  simp only [World.call_fst]
  split_ifs
  · exact ⟨_, by simp; rfl⟩
  · exact ⟨_, by simp; rfl⟩
  · exact ⟨_, by simp [forgeToken_trace]; rfl⟩

/-- C3.  The usage error is raised exactly for the argument lists with nothing left after the
optional leading flag: the empty list, `/wait` alone and `-wait` alone.  The run then returns
1 and its trace is the usage line and one log line: no call into the operating system. -/
theorem C3_usage_error (os : OS) (prog : WString) (args : List WString) :
    (remainingArgs (prog :: args) = [] ↔
      args = [] ∨ args = [wstr "/wait"] ∨ args = [wstr "-wait"]) ∧
    (assemble (prog :: args) = .usageError ↔ remainingArgs (prog :: args) = []) ∧
    (assemble (prog :: args) = .usageError →
      (_tmain os (prog :: args)).result = 1 ∧
      (_tmain os (prog :: args)).trace
        = [.stderr (wstr "Usage: ServiceUIClone.exe [/wait] <command line to launch>"),
            .log (wstr "Insufficient arguments provided.")] ∧
      ∀ e ∈ (_tmain os (prog :: args)).trace, e.isOSCall = false) := by
  refine ⟨remainingArgs_eq_nil_iff prog args, ?_, ?_⟩
  · rw [assemble_eq]
    split_ifs <;> simp [*]
  · intro h
    rw [tmain_usageError os _ h]
    simp [Event.isOSCall]

/-- C4.  With at least one remaining argument, a trimmed command line of more than 1024
characters makes the run fail with the command-too-long error: it returns 1 and its trace is
the error line and one log line, with no call into the operating system.  A non-empty trimmed
command line of at most 1024 characters (1024 included) passes validation, and the pipeline
is entered: `ImpersonateSelf` is called. -/
theorem C4_command_too_long (os : OS) (prog : WString) (args : List WString)
    (hrem : remainingArgs (prog :: args) ≠ []) :
    (1024 < (trimmedCommandLine (prog :: args)).length →
      assemble (prog :: args) = .commandTooLong ∧
      (_tmain os (prog :: args)).result = 1 ∧
      (_tmain os (prog :: args)).trace
        = [.stderr (wstr "Error: Command line exceeds maximum allowed length."),
            .log (wstr "Command line too long.")] ∧
      ∀ e ∈ (_tmain os (prog :: args)).trace, e.isOSCall = false) ∧
    (trimmedCommandLine (prog :: args) ≠ [] →
      (trimmedCommandLine (prog :: args)).length ≤ 1024 →
      assemble (prog :: args)
        = .ok (parseWait (prog :: args)).1 (trimmedCommandLine (prog :: args)) ∧
      Event.impersonateSelf ∈ (_tmain os (prog :: args)).trace) := by
  constructor
  · intro hlen
    have hne : trimmedCommandLine (prog :: args) ≠ [] := by
      intro h0; rw [h0] at hlen; simp at hlen
    have h : assemble (prog :: args) = .commandTooLong := by
      rw [assemble_eq, if_neg hrem, if_neg hne, if_pos hlen]
    rw [tmain_commandTooLong os _ h]
    simp [Event.isOSCall, h]
  · intro hne hlen
    have h : assemble (prog :: args)
        = .ok (parseWait (prog :: args)).1 (trimmedCommandLine (prog :: args)) := by
      rw [assemble_eq, if_neg hrem, if_neg hne, if_neg (Nat.not_lt.mpr hlen)]
    refine ⟨h, ?_⟩
    rw [tmain_ok os _ _ _ h]
    obtain ⟨rest, hrest⟩ := pipeline_enters os (parseWait (prog :: args)).1
      (trimmedCommandLine (prog :: args)) ⟨os.initialLastError, []⟩
    simp [hrest]

/-- C5.  With at least one remaining argument, the run fails with the empty-command error
exactly when the joined string is empty after trimming, which is when every character of the
join is whitespace; the run then returns 1 and its trace is the error line and one log line,
with no call into the operating system.  The argument lists `""`, `" "` and `"" "\t"` are
such inputs. -/
theorem C5_empty_command (os : OS) (prog : WString) (args : List WString)
    (hrem : remainingArgs (prog :: args) ≠ []) :
    (assemble (prog :: args) = .emptyCommand ↔ trimmedCommandLine (prog :: args) = []) ∧
    (trimmedCommandLine (prog :: args) = [] ↔
      ∀ c ∈ joinWithSpaces (remainingArgs (prog :: args)), isWhitespace c = true) ∧
    (assemble (prog :: args) = .emptyCommand →
      (_tmain os (prog :: args)).result = 1 ∧
      (_tmain os (prog :: args)).trace
        = [.stderr (wstr "Error: The command line is empty after trimming."),
            .log (wstr "Empty command line after trimming.")] ∧
      ∀ e ∈ (_tmain os (prog :: args)).trace, e.isOSCall = false) ∧
    assemble [prog, wstr ""] = .emptyCommand ∧
    assemble [prog, wstr " "] = .emptyCommand ∧
    assemble [prog, wstr "", wstr "\t"] = .emptyCommand := by
  refine ⟨?_, ?_, ?_, by rfl, by rfl, by rfl⟩
  · rw [assemble_eq, if_neg hrem]
    split_ifs <;> simp [*]
  · rw [trimmedCommandLine, combineArgs_eq_join, Trim_eq_nil_iff]
  · intro h
    rw [tmain_emptyCommand os _ h]
    simp [Event.isOSCall]

/-- Witness for C3: `/wait` alone. -/
theorem C3_usage_error_witness :
    assemble [wstr "ServiceUIClone.exe", wstr "/wait"] = .usageError ∧
    (_tmain allSucceed [wstr "ServiceUIClone.exe", wstr "/wait"]).result = 1 :=
  ⟨by rfl, ((C3_usage_error allSucceed (wstr "ServiceUIClone.exe") [wstr "/wait"]).2.2
    (by rfl)).1⟩

set_option maxRecDepth 100000 in
/-- Witness for C4: one argument of 1025 letters. -/
theorem C4_command_too_long_witness :
    remainingArgs [wstr "ServiceUIClone.exe", List.replicate 1025 'a'] ≠ [] ∧
    1024 < (trimmedCommandLine [wstr "ServiceUIClone.exe", List.replicate 1025 'a']).length ∧
    (_tmain allSucceed [wstr "ServiceUIClone.exe", List.replicate 1025 'a']).result = 1 :=
  ⟨by decide, by decide,
    ((C4_command_too_long allSucceed (wstr "ServiceUIClone.exe") [List.replicate 1025 'a']
      (by decide)).1 (by decide)).2.1⟩

/-- Witness for C5: one argument made of a space and a tab. -/
theorem C5_empty_command_witness :
    remainingArgs [wstr "ServiceUIClone.exe", wstr " \t"] ≠ [] ∧
    assemble [wstr "ServiceUIClone.exe", wstr " \t"] = .emptyCommand ∧
    (_tmain allSucceed [wstr "ServiceUIClone.exe", wstr " \t"]).result = 1 :=
  ⟨by decide, by rfl,
    ((C5_empty_command allSucceed (wstr "ServiceUIClone.exe") [wstr " \t"] (by decide)).2.2.1
      (by rfl)).1⟩

/-! ## A failing step ends the run -/

@[simp] theorem position_stderr (l : WString) : (Event.stderr l).position = 0 := rfl
@[simp] theorem position_stdout (l : WString) : (Event.stdout l).position = 0 := rfl
@[simp] theorem position_log (l : WString) : (Event.log l).position = 0 := rfl
@[simp] theorem position_closeHandle (h : HANDLE) : (Event.closeHandle h).position = 0 := rfl
@[simp] theorem position_impersonateSelf : Event.impersonateSelf.position = 1 := rfl
@[simp] theorem position_wts : Event.wtsGetActiveConsoleSessionId.position = 2 := rfl
@[simp] theorem position_openProcessToken (ok : Bool) :
    (Event.openProcessToken .processToken ok).position = 3 := rfl
@[simp] theorem position_duplicateTokenEx (h : HANDLE) (ok : Bool) :
    (Event.duplicateTokenEx h ok).position = 4 := rfl
@[simp] theorem position_revertToSelf : Event.revertToSelf.position = 5 := rfl
@[simp] theorem position_setTokenInformation (h : HANDLE) (sid : Nat) :
    (Event.setTokenInformation h sid).position = 6 := rfl
@[simp] theorem position_openPrivilegeToken (n : WString) (ok : Bool) :
    (Event.openProcessToken (.privilegeToken n) ok).position = privilegePosition n := rfl
@[simp] theorem position_lookupPrivilegeValue (n : WString) :
    (Event.lookupPrivilegeValue n).position = privilegePosition n := rfl
@[simp] theorem position_adjustTokenPrivileges (n : WString) :
    (Event.adjustTokenPrivileges (.valid (.privilegeToken n))).position
      = privilegePosition n := rfl
@[simp] theorem position_createProcessAsUser (h : HANDLE) (c : WString) (ok : Bool) :
    (Event.createProcessAsUser h c ok).position = 10 := rfl
@[simp] theorem position_waitForSingleObject (h : HANDLE) :
    (Event.waitForSingleObject h).position = 11 := rfl
@[simp] theorem position_getExitCodeProcess (h : HANDLE) :
    (Event.getExitCodeProcess h).position = 12 := rfl

theorem privilegeEvents_position (os : OS) (n : WString) :
    ∀ e ∈ privilegeEvents os n, e.position = 0 ∨ e.position = privilegePosition n := by
  unfold privilegeEvents EnablePrivilege
  generalize os.privilege n = p
  rcases p with ⟨o, l, a, e⟩
  cases o <;> cases l <;> cases a <;>
    simp [HandleWrapper.reset, HandleWrapper.get, Win32Result.succeeded]

theorem launchEvents_position (os : OS) (wait : Bool) (cmd : WString) (sid : Nat) (e0 : Nat) :
    ∀ e ∈ launchEvents os wait cmd sid ⟨.valid .processToken⟩ ⟨.valid .duplicateToken⟩ e0,
      e.position = 0 ∨ 10 ≤ e.position := by
  unfold launchEvents launchAndWait
  simp only [World.call_fst]
  split_ifs <;> simp [HandleWrapper.get]

theorem launch_failure (os : OS) (wait : Bool) (cmd : WString) (sid : Nat) (w : World)
    (e0 : Nat) (h : os.createProcessAsUser.succeeded = false) :
    (launchAndWait os wait cmd sid ⟨.valid .processToken⟩ ⟨.valid .duplicateToken⟩ w).1 = 1 ∧
    ∀ e ∈ launchEvents os wait cmd sid ⟨.valid .processToken⟩ ⟨.valid .duplicateToken⟩ e0,
      e.position ≤ 10 := by
  unfold launchEvents launchAndWait
  simp only [World.call_fst, h]
  split_ifs <;> simp [HandleWrapper.get]

theorem le_of_position {e : Event} {p k : Nat} (h : e.position = 0 ∨ e.position = p)
    (hk : p ≤ k) : e.position ≤ k := by
  rcases h with h | h <;> omega

theorem forall_position_le {l : List Event} {p k : Nat}
    (h : ∀ e ∈ l, e.position = 0 ∨ e.position = p) (hk : p ≤ k) :
    ∀ e ∈ l, e.position ≤ k :=
  fun e he => le_of_position (h e he) hk

theorem enable_failure (os : OS) (argv : List WString) (wait : Bool) (cmd : WString) (sid : Nat)
    (w : World) (s : Step) (hs : 7 ≤ s.position) (h : s.fails os argv = true) :
    (enablePrivileges os wait cmd sid ⟨.valid .processToken⟩ ⟨.valid .duplicateToken⟩ w).1 = 1 ∧
    ∀ e ∈ enableEvents os wait cmd sid ⟨.valid .processToken⟩ ⟨.valid .duplicateToken⟩,
      e.position ≤ s.position := by
  have p1 := privilegeEvents_position os SE_INCREASE_QUOTA_NAME
  have p2 := privilegeEvents_position os SE_ASSIGNPRIMARYTOKEN_NAME
  have p3 := privilegeEvents_position os SE_TCB_NAME
  rw [show privilegePosition SE_INCREASE_QUOTA_NAME = 7 by decide] at p1
  rw [show privilegePosition SE_ASSIGNPRIMARYTOKEN_NAME = 8 by decide] at p2
  rw [show privilegePosition SE_TCB_NAME = 9 by decide] at p3
  have a17 := forall_position_le p1 (show 7 ≤ 7 by omega)
  have a18 := forall_position_le p1 (show 7 ≤ 8 by omega)
  have a19 := forall_position_le p1 (show 7 ≤ 9 by omega)
  have a10 := forall_position_le p1 (show 7 ≤ 10 by omega)
  have a28 := forall_position_le p2 (show 8 ≤ 8 by omega)
  have a29 := forall_position_le p2 (show 8 ≤ 9 by omega)
  have a20 := forall_position_le p2 (show 8 ≤ 10 by omega)
  have a39 := forall_position_le p3 (show 9 ≤ 9 by omega)
  have a30 := forall_position_le p3 (show 9 ≤ 10 by omega)
  unfold enableEvents enablePrivileges
  simp only [EnablePrivilege_fst]
  cases s <;> simp only [Step.position] at hs <;> try omega
  all_goals simp only [Step.fails, Bool.not_eq_true'] at h
  all_goals split_ifs
  all_goals simp [or_imp, forall_and, launchAndWait_trace, Step.position, *]
  all_goals repeat' apply And.intro
  all_goals
    first
    | assumption
    | exact (launch_failure os wait cmd sid ⟨0, []⟩ _ h).2
    | exact (launch_failure os wait cmd sid _ 0 h).1

theorem forge_failure (os : OS) (argv : List WString) (wait : Bool) (cmd : WString) (sid : Nat)
    (w : World) (e0 : Nat) (s : Step) (hs : 3 ≤ s.position) (h : s.fails os argv = true) :
    (forgeToken os wait cmd sid w).1 = 1 ∧
    ∀ e ∈ forgeEvents os wait cmd sid e0, e.position ≤ s.position := by
  by_cases hs7 : 7 ≤ s.position
  · have hen := fun w => enable_failure os argv wait cmd sid w s hs7 h
    unfold forgeEvents forgeToken
    simp only [World.call_fst]
    split_ifs
    all_goals simp [or_imp, forall_and, enablePrivileges_trace, HandleWrapper.get, hen]
    all_goals repeat' apply And.intro
    all_goals first | omega | exact (hen ⟨0, []⟩).2
  · unfold forgeEvents forgeToken
    simp only [World.call_fst]
    cases s <;> simp only [Step.position] at hs hs7 <;> try omega
    all_goals simp only [Step.fails, Bool.not_eq_true'] at h
    all_goals split_ifs
    all_goals simp [or_imp, forall_and, Step.position, HandleWrapper.get, *]

theorem pipeline_failure (os : OS) (argv : List WString) (wait : Bool) (cmd : WString)
    (w : World) (s : Step) (hs : 1 ≤ s.position) (h : s.fails os argv = true) :
    (pipeline os wait cmd w).1 = 1 ∧
    ∀ e ∈ (pipeline os wait cmd ⟨w.lastError, []⟩).2.trace, e.position ≤ s.position := by
  by_cases hs3 : 3 ≤ s.position
  · have hf := fun w e0 => forge_failure os argv wait cmd (os.activeConsoleSessionId % 2 ^ 32)
      w e0 s hs3 h
    unfold pipeline
    simp only [World.call_fst]
    split_ifs
    all_goals simp [or_imp, forall_and, forgeToken_trace, hf]
    all_goals repeat' apply And.intro
    all_goals first | omega | exact (hf ⟨0, []⟩ _).2 | exact (hf _ 0).1
  · unfold pipeline
    simp only [World.call_fst]
    cases s <;> simp only [Step.position] at hs hs3 <;> try omega
    all_goals simp only [Step.fails, Bool.not_eq_true', decide_eq_true_eq] at h
    all_goals split_ifs
    all_goals simp [or_imp, forall_and, Step.position, *]

/-- A failing step makes `_tmain` return 1, and no call placed after that step is made. -/
theorem tmain_failure (os : OS) (argv : List WString) (s : Step) (h : s.fails os argv = true) :
    (_tmain os argv).result = 1 ∧ ∀ e ∈ (_tmain os argv).trace, e.position ≤ s.position := by
  cases ha : assemble argv with
  | usageError => rw [tmain_usageError os argv ha]; simp
  | emptyCommand => rw [tmain_emptyCommand os argv ha]; simp
  | commandTooLong => rw [tmain_commandTooLong os argv ha]; simp
  | ok wait cmd =>
    rw [tmain_ok os argv wait cmd ha]
    have hs : 1 ≤ s.position := by
      cases s <;> simp [Step.position]
      simp [Step.fails, ha] at h
    exact pipeline_failure os argv wait cmd ⟨os.initialLastError, []⟩ s hs h

/-! ## Every handle is closed once -/

@[simp] theorem acquired_nil (r : Resource) : acquired [] r = 0 := rfl

@[simp] theorem released_nil (r : Resource) : released [] r = 0 := rfl

@[simp] theorem acquired_append (t u : List Event) (r : Resource) :
    acquired (t ++ u) r = acquired t r + acquired u r := by
  simp [acquired]

@[simp] theorem released_append (t u : List Event) (r : Resource) :
    released (t ++ u) r = released t r + released u r := by
  simp [released]

@[simp] theorem acquired_cons (e : Event) (t : List Event) (r : Resource) :
    acquired (e :: t) r = acquired t r + (if e.acquires r = true then 1 else 0) := by
  simp [acquired, List.countP_cons]

@[simp] theorem released_cons (e : Event) (t : List Event) (r : Resource) :
    released (e :: t) r = released t r + (if e.releases r = true then 1 else 0) := by
  simp [released, List.countP_cons]

theorem privilegeEvents_handles (os : OS) (n : WString) (r : Resource) :
    released (privilegeEvents os n) r = acquired (privilegeEvents os n) r ∧
    acquired (privilegeEvents os n) r ≤ (if r = .privilegeToken n then 1 else 0) := by
  unfold privilegeEvents EnablePrivilege
  generalize os.privilege n = p
  rcases p with ⟨o, l, a, e⟩
  cases o <;> cases l <;> cases a <;>
    simp [HandleWrapper.reset, HandleWrapper.get, Win32Result.succeeded, Event.acquires,
      Event.releases] <;> split_ifs <;> simp_all

theorem launchEvents_handles (os : OS) (wait : Bool) (cmd : WString) (sid : Nat) (e0 : Nat)
    (r : Resource) :
    released (launchEvents os wait cmd sid ⟨.valid .processToken⟩ ⟨.valid .duplicateToken⟩ e0) r
      = acquired (launchEvents os wait cmd sid ⟨.valid .processToken⟩ ⟨.valid .duplicateToken⟩
          e0) r + (if r = .processToken ∨ r = .duplicateToken then 1 else 0) ∧
    acquired (launchEvents os wait cmd sid ⟨.valid .processToken⟩ ⟨.valid .duplicateToken⟩ e0) r
      ≤ (if r = .childProcess ∨ r = .childThread then 1 else 0) := by
  unfold launchEvents launchAndWait
  simp only [World.call_fst]
  cases r <;> split_ifs <;> simp_all [HandleWrapper.get, Event.acquires, Event.releases]

theorem enableEvents_handles (os : OS) (wait : Bool) (cmd : WString) (sid : Nat) (r : Resource) :
    released (enableEvents os wait cmd sid ⟨.valid .processToken⟩ ⟨.valid .duplicateToken⟩) r
      = acquired (enableEvents os wait cmd sid ⟨.valid .processToken⟩ ⟨.valid .duplicateToken⟩) r
        + (if r = .processToken ∨ r = .duplicateToken then 1 else 0) ∧
    acquired (enableEvents os wait cmd sid ⟨.valid .processToken⟩ ⟨.valid .duplicateToken⟩) r
      ≤ (if r = .processToken ∨ r = .duplicateToken then 0 else 1) := by
  have p1 := privilegeEvents_handles os SE_INCREASE_QUOTA_NAME r
  have p2 := privilegeEvents_handles os SE_ASSIGNPRIMARYTOKEN_NAME r
  have p3 := privilegeEvents_handles os SE_TCB_NAME r
  have d12 : SE_INCREASE_QUOTA_NAME ≠ SE_ASSIGNPRIMARYTOKEN_NAME := by decide
  have d13 : SE_INCREASE_QUOTA_NAME ≠ SE_TCB_NAME := by decide
  have d23 : SE_ASSIGNPRIMARYTOKEN_NAME ≠ SE_TCB_NAME := by decide
  have l0 := launchEvents_handles os wait cmd sid (privilegeLastError os SE_TCB_NAME) r
  unfold enableEvents enablePrivileges
  simp only [EnablePrivilege_fst]
  cases r
  all_goals simp [Event.acquires, Event.releases] at p1 p2 p3 l0 ⊢
  all_goals split_ifs
  all_goals simp [launchAndWait_trace, Event.acquires, Event.releases, *]
  all_goals obtain ⟨_, b1⟩ := p1
  all_goals obtain ⟨_, b2⟩ := p2
  all_goals obtain ⟨_, b3⟩ := p3
  all_goals split_ifs at b1 b2 b3 with c1 c2 c3
  all_goals first | omega | (exfalso; simp_all)

theorem forgeEvents_handles (os : OS) (wait : Bool) (cmd : WString) (sid : Nat) (e0 : Nat)
    (r : Resource) :
    released (forgeEvents os wait cmd sid e0) r = acquired (forgeEvents os wait cmd sid e0) r ∧
    acquired (forgeEvents os wait cmd sid e0) r ≤ 1 := by
  have en := enableEvents_handles os wait cmd sid r
  unfold forgeEvents forgeToken
  simp only [World.call_fst]
  cases r
  all_goals simp at en
  all_goals split_ifs
  all_goals simp [enablePrivileges_trace, Event.acquires, Event.releases, HandleWrapper.get, *]

theorem pipeline_handles (os : OS) (wait : Bool) (cmd : WString) (e0 : Nat) (r : Resource) :
    released (pipeline os wait cmd ⟨e0, []⟩).2.trace r
      = acquired (pipeline os wait cmd ⟨e0, []⟩).2.trace r ∧
    acquired (pipeline os wait cmd ⟨e0, []⟩).2.trace r ≤ 1 := by
  have fo := fun e0 => forgeEvents_handles os wait cmd (os.activeConsoleSessionId % 2 ^ 32) e0 r
  unfold pipeline
  simp only [World.call_fst]
  split_ifs
  all_goals simp [forgeToken_trace, Event.acquires, Event.releases]
  exact fo _

/-- In every run each resource is acquired at most once, and closed as often as acquired. -/
theorem tmain_handles (os : OS) (argv : List WString) (r : Resource) :
    released (_tmain os argv).trace r = acquired (_tmain os argv).trace r ∧
    acquired (_tmain os argv).trace r ≤ 1 := by
  cases ha : assemble argv with
  | usageError => rw [tmain_usageError os argv ha]; simp [Event.acquires, Event.releases]
  | emptyCommand => rw [tmain_emptyCommand os argv ha]; simp [Event.acquires, Event.releases]
  | commandTooLong => rw [tmain_commandTooLong os argv ha]; simp [Event.acquires, Event.releases]
  | ok wait cmd =>
    rw [tmain_ok os argv wait cmd ha]
    exact pipeline_handles os wait cmd os.initialLastError r

/-! ## Runs in which no step fails -/

theorem exitStatus_toInt32 (d : Nat) : exitStatus (toInt32 d) = d % 2 ^ 32 := by
  unfold exitStatus toInt32
  split_ifs <;> omega

theorem launch_result (os : OS) (wait : Bool) (cmd : WString) (sid : Nat)
    (hp hd : HandleWrapper) (w : World) (h : os.createProcessAsUser.succeeded = true) :
    (launchAndWait os wait cmd sid hp hd w).1
      = if wait = true ∧ os.waitForSingleObject % 2 ^ 32 = WAIT_OBJECT_0
            ∧ os.getExitCodeProcess.succeeded = true
        then toInt32 (os.childExitCode % 2 ^ 32) else 0 := by
  unfold launchAndWait
  simp only [World.call_fst, h]
  split_ifs <;> simp_all

/-- When no step fails, the value of `_tmain` is the child's exit status in wait mode, if the
wait ends with `WAIT_OBJECT_0` and the exit code query succeeds, and 0 otherwise. -/
theorem tmain_result_of_success (os : OS) (argv : List WString) (wait : Bool) (cmd : WString)
    (ha : assemble argv = .ok wait cmd) (hs : ∀ s : Step, s.fails os argv = false) :
    (_tmain os argv).result
      = if wait = true ∧ os.waitForSingleObject % 2 ^ 32 = WAIT_OBJECT_0
            ∧ os.getExitCodeProcess.succeeded = true
        then toInt32 (os.childExitCode % 2 ^ 32) else 0 := by
  have h1 := hs .selfImpersonation
  have h2 := hs .sessionResolution
  have h3 := hs .tokenOpening
  have h4 := hs .tokenDuplication
  have h6 := hs .sessionRebinding
  have h7 := hs .enableIncreaseQuota
  have h8 := hs .enableAssignPrimaryToken
  have h9 := hs .enableTcb
  have h10 := hs .processCreation
  simp only [Step.fails, Bool.not_eq_false', decide_eq_false_iff_not] at h1 h2 h3 h4 h6 h7 h8 h9 h10
  rw [tmain_ok os argv wait cmd ha]
  simp only [pipeline, forgeToken, enablePrivileges, World.call_fst, EnablePrivilege_fst, h1, h2,
    h3, h4, h6, h7, h8, h9]
  simp only [Bool.true_eq_false, if_false]
  exact launch_result os wait cmd _ _ _ _ h10

/-! ## Runs that reach the privilege step -/

/-- When the steps up to session rebinding succeed, the trace is a prefix holding the session
query, the duplication and the rebinding, followed by the events of `enablePrivileges`. -/
theorem pipeline_through_rebinding (os : OS) (wait : Bool) (cmd : WString) (e0 : Nat)
    (h1 : os.impersonateSelf.succeeded = true)
    (h2 : ¬ os.activeConsoleSessionId % 2 ^ 32 = 0xFFFFFFFF)
    (h3 : os.openProcessToken.succeeded = true) (h4 : os.duplicateTokenEx.succeeded = true)
    (h6 : os.setTokenInformation.succeeded = true) :
    ∃ pre, (pipeline os wait cmd ⟨e0, []⟩).2.trace
        = pre ++ enableEvents os wait cmd (os.activeConsoleSessionId % 2 ^ 32)
            ⟨.valid .processToken⟩ ⟨.valid .duplicateToken⟩ ∧
      Event.wtsGetActiveConsoleSessionId ∈ pre ∧
      Event.duplicateTokenEx (.valid .processToken) true ∈ pre ∧
      Event.setTokenInformation (.valid .duplicateToken) (os.activeConsoleSessionId % 2 ^ 32)
        ∈ pre ∧
      acquired pre .processToken = 1 ∧ acquired pre .duplicateToken = 1 ∧
      (∀ e ∈ pre, e.position ≤ 6) := by
  exact ⟨_, by
    simp only [pipeline, forgeToken, World.call_fst, h1, h3, h4, h6, if_neg h2,
      Bool.true_eq_false, if_false, enablePrivileges_trace]
    rfl, by
    simp only [World.call_trace, World.call_fst, LogMessage_trace, PrintError_trace,
      World.emit_trace]
    split_ifs <;> simp [Event.acquires, HandleWrapper.get]⟩

theorem tmain_through_rebinding (os : OS) (argv : List WString)
    (h : ∀ s : Step, s.position ≤ 6 → s.fails os argv = false) :
    ∃ pre wait cmd, (_tmain os argv).trace
        = pre ++ enableEvents os wait cmd (os.activeConsoleSessionId % 2 ^ 32)
            ⟨.valid .processToken⟩ ⟨.valid .duplicateToken⟩ ∧
      Event.wtsGetActiveConsoleSessionId ∈ pre ∧
      Event.duplicateTokenEx (.valid .processToken) true ∈ pre ∧
      Event.setTokenInformation (.valid .duplicateToken) (os.activeConsoleSessionId % 2 ^ 32)
        ∈ pre ∧
      acquired pre .processToken = 1 ∧ acquired pre .duplicateToken = 1 ∧
      (∀ e ∈ pre, e.position ≤ 6) := by
  have h0 := h .commandAssembly (by decide)
  have h1 := h .selfImpersonation (by decide)
  have h2 := h .sessionResolution (by decide)
  have h3 := h .tokenOpening (by decide)
  have h4 := h .tokenDuplication (by decide)
  have h6 := h .sessionRebinding (by decide)
  simp only [Step.fails, Bool.not_eq_false', decide_eq_false_iff_not] at h1 h2 h3 h4 h6
  cases ha : assemble argv with
  | ok wait cmd =>
    rw [tmain_ok os argv wait cmd ha]
    obtain ⟨pre, hpre⟩ := pipeline_through_rebinding os wait cmd os.initialLastError h1 h2 h3
      h4 h6
    exact ⟨pre, wait, cmd, hpre⟩
  | usageError => simp [Step.fails, ha] at h0
  | emptyCommand => simp [Step.fails, ha] at h0
  | commandTooLong => simp [Step.fails, ha] at h0

/-! ## The calls of a run are made in program order -/

@[simp] theorem callPositions_nil : callPositions [] = [] := rfl

@[simp] theorem callPositions_append (t u : List Event) :
    callPositions (t ++ u) = callPositions t ++ callPositions u := by
  simp [callPositions]

@[simp] theorem callPositions_cons (e : Event) (t : List Event) :
    callPositions (e :: t)
      = if e.position = 0 then callPositions t else e.position :: callPositions t := by
  by_cases h : e.position = 0 <;> simp [callPositions, List.filter_cons, h]

theorem mem_callPositions {t : List Event} {p : Nat} (h : p ∈ callPositions t) :
    p ≠ 0 ∧ ∃ e ∈ t, e.position = p := by
  simpa [callPositions, List.mem_filter, and_comm] using h

theorem pairwise_of_all_eq {l : List Nat} {p : Nat} (h : ∀ x ∈ l, x = p) :
    l.Pairwise (· ≤ ·) := by
  rw [List.pairwise_iff_forall_sublist]
  intro a b hab
  have ha := h a (hab.subset (by simp))
  have hb := h b (hab.subset (by simp))
  omega

theorem privilegeEvents_callPositions (os : OS) (n : WString) :
    ∀ p ∈ callPositions (privilegeEvents os n), p = privilegePosition n := by
  intro p hp
  obtain ⟨h0, e, he, rfl⟩ := mem_callPositions hp
  rcases privilegeEvents_position os n e he with h | h
  · exact absurd h h0
  · exact h

theorem launchEvents_order (os : OS) (wait : Bool) (cmd : WString) (sid : Nat) (e0 : Nat) :
    (callPositions (launchEvents os wait cmd sid ⟨.valid .processToken⟩
      ⟨.valid .duplicateToken⟩ e0)).Pairwise (· ≤ ·) ∧
    ∀ p ∈ callPositions (launchEvents os wait cmd sid ⟨.valid .processToken⟩
      ⟨.valid .duplicateToken⟩ e0), 10 ≤ p := by
  unfold launchEvents launchAndWait
  simp only [World.call_fst]
  split_ifs <;> simp [HandleWrapper.get]

theorem enableEvents_order (os : OS) (wait : Bool) (cmd : WString) (sid : Nat) :
    (callPositions (enableEvents os wait cmd sid ⟨.valid .processToken⟩
      ⟨.valid .duplicateToken⟩)).Pairwise (· ≤ ·) ∧
    ∀ p ∈ callPositions (enableEvents os wait cmd sid ⟨.valid .processToken⟩
      ⟨.valid .duplicateToken⟩), 7 ≤ p := by
  have p1 := privilegeEvents_callPositions os SE_INCREASE_QUOTA_NAME
  have p2 := privilegeEvents_callPositions os SE_ASSIGNPRIMARYTOKEN_NAME
  have p3 := privilegeEvents_callPositions os SE_TCB_NAME
  rw [show privilegePosition SE_INCREASE_QUOTA_NAME = 7 by decide] at p1
  rw [show privilegePosition SE_ASSIGNPRIMARYTOKEN_NAME = 8 by decide] at p2
  rw [show privilegePosition SE_TCB_NAME = 9 by decide] at p3
  have s1 := pairwise_of_all_eq p1
  have s2 := pairwise_of_all_eq p2
  have s3 := pairwise_of_all_eq p3
  obtain ⟨sL, pL⟩ := launchEvents_order os wait cmd sid (privilegeLastError os SE_TCB_NAME)
  have l1 : ∀ p ∈ callPositions (privilegeEvents os SE_INCREASE_QUOTA_NAME), 7 ≤ p :=
    fun p hp => by have := p1 p hp; omega
  have l2 : ∀ p ∈ callPositions (privilegeEvents os SE_ASSIGNPRIMARYTOKEN_NAME), 7 ≤ p :=
    fun p hp => by have := p2 p hp; omega
  have l3 : ∀ p ∈ callPositions (privilegeEvents os SE_TCB_NAME), 7 ≤ p :=
    fun p hp => by have := p3 p hp; omega
  have lL := fun p hp => Nat.le_trans (show 7 ≤ 10 by omega) (pL p hp)
  have c12 : ∀ a ∈ callPositions (privilegeEvents os SE_INCREASE_QUOTA_NAME),
      ∀ b ∈ callPositions (privilegeEvents os SE_ASSIGNPRIMARYTOKEN_NAME), a ≤ b :=
    fun a ha b hb => by have := p1 a ha; have := p2 b hb; omega
  have c13 : ∀ a ∈ callPositions (privilegeEvents os SE_INCREASE_QUOTA_NAME),
      ∀ b ∈ callPositions (privilegeEvents os SE_TCB_NAME), a ≤ b :=
    fun a ha b hb => by have := p1 a ha; have := p3 b hb; omega
  have c23 : ∀ a ∈ callPositions (privilegeEvents os SE_ASSIGNPRIMARYTOKEN_NAME),
      ∀ b ∈ callPositions (privilegeEvents os SE_TCB_NAME), a ≤ b :=
    fun a ha b hb => by have := p2 a ha; have := p3 b hb; omega
  have c1L := fun a ha b hb => Nat.le_trans (Nat.le_of_eq (p1 a ha))
    (Nat.le_trans (show 7 ≤ 10 by omega) (pL b hb))
  have c2L := fun a ha b hb => Nat.le_trans (Nat.le_of_eq (p2 a ha))
    (Nat.le_trans (show 8 ≤ 10 by omega) (pL b hb))
  have c3L := fun a ha b hb => Nat.le_trans (Nat.le_of_eq (p3 a ha))
    (Nat.le_trans (show 9 ≤ 10 by omega) (pL b hb))
  unfold enableEvents enablePrivileges
  simp only [EnablePrivilege_fst]
  split_ifs
  all_goals simp only [EnablePrivilege_trace, PrintError_trace, destroy_trace, LogMessage_trace,
    launchAndWait_trace, LogMessage_lastError, EnablePrivilege_lastError, List.nil_append,
    callPositions_append, callPositions_cons, callPositions_nil, position_stderr, position_log,
    position_closeHandle, if_true, List.append_nil, List.pairwise_append, List.mem_append,
    ne_eq, reduceCtorEq, not_false_eq_true, and_self, if_true, or_imp, forall_and]
  all_goals repeat' apply And.intro
  all_goals assumption

theorem forgeEvents_order (os : OS) (wait : Bool) (cmd : WString) (sid : Nat) (e0 : Nat) :
    (callPositions (forgeEvents os wait cmd sid e0)).Pairwise (· ≤ ·) ∧
    ∀ p ∈ callPositions (forgeEvents os wait cmd sid e0), 3 ≤ p := by
  obtain ⟨sE, pE⟩ := enableEvents_order os wait cmd sid
  have l3 := fun p hp => Nat.le_trans (show 3 ≤ 7 by omega) (pE p hp)
  have l4 := fun p hp => Nat.le_trans (show 4 ≤ 7 by omega) (pE p hp)
  have l5 := fun p hp => Nat.le_trans (show 5 ≤ 7 by omega) (pE p hp)
  have l6 := fun p hp => Nat.le_trans (show 6 ≤ 7 by omega) (pE p hp)
  unfold forgeEvents forgeToken
  simp only [World.call_fst]
  split_ifs
  all_goals simp [enablePrivileges_trace, HandleWrapper.get, or_imp, forall_and]
  all_goals repeat' apply And.intro
  all_goals assumption

theorem pipeline_order (os : OS) (wait : Bool) (cmd : WString) (e0 : Nat) :
    (callPositions (pipeline os wait cmd ⟨e0, []⟩).2.trace).Pairwise (· ≤ ·) := by
  have f := fun e0 => forgeEvents_order os wait cmd (os.activeConsoleSessionId % 2 ^ 32) e0
  have s := fun e0 => (f e0).1
  have l1 := fun e0 p hp => Nat.le_trans (show 1 ≤ 3 by omega) ((f e0).2 p hp)
  have l2 := fun e0 p hp => Nat.le_trans (show 2 ≤ 3 by omega) ((f e0).2 p hp)
  unfold pipeline
  simp only [World.call_fst]
  split_ifs
  all_goals simp [forgeToken_trace, or_imp, forall_and]
  all_goals repeat' apply And.intro
  all_goals first | exact s _ | exact l1 _ | exact l2 _

/-- The calls of every run are made in the program order of `_tmain`. -/
theorem tmain_order (os : OS) (argv : List WString) :
    (callPositions (_tmain os argv).trace).Pairwise (· ≤ ·) := by
  cases ha : assemble argv with
  | usageError => rw [tmain_usageError os argv ha]; simp
  | emptyCommand => rw [tmain_emptyCommand os argv ha]; simp
  | commandTooLong => rw [tmain_commandTooLong os argv ha]; simp
  | ok wait cmd =>
    rw [tmain_ok os argv wait cmd ha]
    exact pipeline_order os wait cmd os.initialLastError

theorem position_mem_callPositions {t : List Event} {e : Event} (he : e ∈ t)
    (h0 : e.position ≠ 0) : e.position ∈ callPositions t := by
  simp only [callPositions, List.mem_filter, List.mem_map]
  exact ⟨⟨e, he, rfl⟩, by simpa using h0⟩

theorem enableEvents_position (os : OS) (wait : Bool) (cmd : WString) (sid : Nat) :
    ∀ e ∈ enableEvents os wait cmd sid ⟨.valid .processToken⟩ ⟨.valid .duplicateToken⟩,
      e.position = 0 ∨ 7 ≤ e.position := by
  intro e he
  by_cases h0 : e.position = 0
  · exact Or.inl h0
  · exact Or.inr ((enableEvents_order os wait cmd sid).2 _ (position_mem_callPositions he h0))

/-! ## Claims on the pipeline -/

/-- C6, as stated, fails: in wait mode, with every step up to process creation succeeding and
the wait reporting that the child terminated, a child that exits with status 7 while
`GetExitCodeProcess` fails leaves the launcher with result 0, not 7. -/
theorem C6_counterexample :
    assemble [wstr "ServiceUIClone.exe", wstr "/wait", wstr "cmd.exe"]
      = .ok true (wstr "cmd.exe") ∧
    (∀ s : Step,
      s.fails exitQueryFails [wstr "ServiceUIClone.exe", wstr "/wait", wstr "cmd.exe"] = false) ∧
    exitQueryFails.waitForSingleObject % 2 ^ 32 = WAIT_OBJECT_0 ∧
    exitQueryFails.childExitCode = 7 ∧
    (_tmain exitQueryFails [wstr "ServiceUIClone.exe", wstr "/wait", wstr "cmd.exe"]).result
      = 0 ∧
    exitStatus
      (_tmain exitQueryFails [wstr "ServiceUIClone.exe", wstr "/wait", wstr "cmd.exe"]).result
      ≠ exitQueryFails.childExitCode := by
  refine ⟨by rfl, by decide, by rfl, by rfl, by rfl, by decide⟩

/-- C6, amended.  In wait mode, when no step up to process creation fails, the wait reports
that the child terminated and the exit code query succeeds, the value returned by `_tmain` is
the child's exit status read as a 32-bit `int`, so the launcher's own exit status equals the
child's, for every 32-bit value.  In non-wait mode the value is 0 as soon as no step up to
process creation fails, whatever the wait, the query and the child would yield. -/
theorem C6_exit_status (os : OS) (argv : List WString) (wait : Bool) (cmd : WString)
    (ha : assemble argv = .ok wait cmd) (hs : ∀ s : Step, s.fails os argv = false) :
    (wait = true → os.waitForSingleObject % 2 ^ 32 = WAIT_OBJECT_0 →
      os.getExitCodeProcess.succeeded = true →
      ∀ status, status < 2 ^ 32 → os.childExitCode = status →
        (_tmain os argv).result = toInt32 status ∧
        exitStatus (_tmain os argv).result = status) ∧
    (wait = false → (_tmain os argv).result = 0) := by
  have hr := tmain_result_of_success os argv wait cmd ha hs
  constructor
  · intro hw hwait hq status hlt hst
    rw [hr, if_pos ⟨hw, hwait, hq⟩, hst, exitStatus_toInt32, Nat.mod_mod,
      Nat.mod_eq_of_lt hlt]
    exact ⟨rfl, rfl⟩
  · intro hw
    rw [hr, if_neg (by simp [hw])]

/-- Witness for C6: the child exits with status 7 in wait mode. -/
theorem C6_exit_status_witness :
    assemble [wstr "ServiceUIClone.exe", wstr "/wait", wstr "cmd.exe"]
      = .ok true (wstr "cmd.exe") ∧
    (∀ s : Step,
      s.fails allSucceed [wstr "ServiceUIClone.exe", wstr "/wait", wstr "cmd.exe"] = false) ∧
    exitStatus
      (_tmain allSucceed [wstr "ServiceUIClone.exe", wstr "/wait", wstr "cmd.exe"]).result = 7 :=
  ⟨by rfl, by decide,
    ((C6_exit_status allSucceed [wstr "ServiceUIClone.exe", wstr "/wait", wstr "cmd.exe"] true
      (wstr "cmd.exe") (by rfl) (by decide)).1 rfl (by rfl) (by rfl) 7 (by decide) (by rfl)).2⟩

/-- C7.  If any fatal step fails (command assembly, self-impersonation, session resolution,
opening the process token, duplicating it, session rebinding, one of the three privilege
enables, process creation), `_tmain` returns 1 and no call placed after that step in the
program is made; so process creation is attempted only in runs where no earlier step fails. -/
theorem C7_failure_aborts (os : OS) (argv : List WString) (s : Step)
    (h : s.fails os argv = true) :
    (_tmain os argv).result = 1 ∧
    (∀ e ∈ (_tmain os argv).trace, e.position ≤ s.position) ∧
    (∀ token cmd ok, Event.createProcessAsUser token cmd ok ∈ (_tmain os argv).trace →
      s = .processCreation) := by
  obtain ⟨hr, hp⟩ := tmain_failure os argv s h
  refine ⟨hr, hp, ?_⟩
  intro token cmd ok he
  have := hp _ he
  cases s <;> simp [Step.position] at this ⊢

/-- Witness for C7: `DuplicateTokenEx` fails. -/
theorem C7_failure_aborts_witness :
    Step.tokenDuplication.fails duplicationFails [wstr "ServiceUIClone.exe", wstr "cmd.exe"]
      = true ∧
    (_tmain duplicationFails [wstr "ServiceUIClone.exe", wstr "cmd.exe"]).result = 1 ∧
    ∀ e ∈ (_tmain duplicationFails [wstr "ServiceUIClone.exe", wstr "cmd.exe"]).trace,
      e.position ≤ 4 :=
  ⟨by rfl,
    (C7_failure_aborts duplicationFails [wstr "ServiceUIClone.exe", wstr "cmd.exe"]
      .tokenDuplication (by rfl)).1,
    (C7_failure_aborts duplicationFails [wstr "ServiceUIClone.exe", wstr "cmd.exe"]
      .tokenDuplication (by rfl)).2.1⟩

/-- C8.  If one of the three privilege enables fails, `_tmain` returns 1, `CreateProcessAsUser`
is never called, and the process token and the duplicate token are each closed as often as
they were acquired, at most once; in a run that reaches the privilege step (no earlier step
fails) each of the two is closed exactly once. -/
theorem C8_privilege_failure (os : OS) (argv : List WString)
    (h : privilegeEnabled os SE_INCREASE_QUOTA_NAME = false ∨
      privilegeEnabled os SE_ASSIGNPRIMARYTOKEN_NAME = false ∨
      privilegeEnabled os SE_TCB_NAME = false) :
    (_tmain os argv).result = 1 ∧
    (∀ token cmd ok, Event.createProcessAsUser token cmd ok ∉ (_tmain os argv).trace) ∧
    (released (_tmain os argv).trace .processToken
        = acquired (_tmain os argv).trace .processToken ∧
      acquired (_tmain os argv).trace .processToken ≤ 1) ∧
    (released (_tmain os argv).trace .duplicateToken
        = acquired (_tmain os argv).trace .duplicateToken ∧
      acquired (_tmain os argv).trace .duplicateToken ≤ 1) ∧
    ((∀ s : Step, s.position ≤ 6 → s.fails os argv = false) →
      released (_tmain os argv).trace .processToken = 1 ∧
      released (_tmain os argv).trace .duplicateToken = 1) := by
  have hs : ∃ s : Step, s.position ≤ 9 ∧ s.fails os argv = true := by
    rcases h with h | h | h
    · exact ⟨.enableIncreaseQuota, by decide, by simp [Step.fails, h]⟩
    · exact ⟨.enableAssignPrimaryToken, by decide, by simp [Step.fails, h]⟩
    · exact ⟨.enableTcb, by decide, by simp [Step.fails, h]⟩
  obtain ⟨s, hs9, hf⟩ := hs
  obtain ⟨hr, hp⟩ := tmain_failure os argv s hf
  refine ⟨hr, ?_, tmain_handles os argv _, tmain_handles os argv _, ?_⟩
  · intro token cmd ok he
    have := hp _ he
    simp at this
    omega
  · intro hreach
    obtain ⟨pre, wait, cmd, htr, -, -, -, hpt, hdt, -⟩ := tmain_through_rebinding os argv hreach
    have e1 := enableEvents_handles os wait cmd (os.activeConsoleSessionId % 2 ^ 32)
      .processToken
    have e2 := enableEvents_handles os wait cmd (os.activeConsoleSessionId % 2 ^ 32)
      .duplicateToken
    simp at e1 e2
    rw [(tmain_handles os argv _).1, (tmain_handles os argv _).1, htr]
    simp [hpt, hdt, e1.2, e2.2]

/-- Witness for C8: the token does not hold `SeTcbPrivilege`. -/
theorem C8_privilege_failure_witness :
    privilegeEnabled tcbMissing SE_TCB_NAME = false ∧
    (_tmain tcbMissing [wstr "ServiceUIClone.exe", wstr "cmd.exe"]).result = 1 ∧
    released (_tmain tcbMissing [wstr "ServiceUIClone.exe", wstr "cmd.exe"]).trace
      .duplicateToken = 1 :=
  ⟨by decide,
    (C8_privilege_failure tcbMissing [wstr "ServiceUIClone.exe", wstr "cmd.exe"]
      (Or.inr (Or.inr (by decide)))).1,
    ((C8_privilege_failure tcbMissing [wstr "ServiceUIClone.exe", wstr "cmd.exe"]
      (Or.inr (Or.inr (by decide)))).2.2.2.2 (by decide)).2⟩

/-- C9.  In every run, whatever the operating system answers and in both modes, each handle
the launcher acquires (the process token, the duplicate token, the token of each
`EnablePrivilege`, the child's process and thread handles) is acquired at most once and closed
exactly as often as it is acquired: never left open, never closed twice. -/
theorem C9_handles_closed_once (os : OS) (argv : List WString) (r : Resource) :
    released (_tmain os argv).trace r = acquired (_tmain os argv).trace r ∧
    acquired (_tmain os argv).trace r ≤ 1 :=
  tmain_handles os argv r

/-- C10, as stated, fails: on a system whose token holds none of the three privileges, no
privilege enable succeeds, yet the console session is queried, the token is duplicated and
the session id of the duplicate is rewritten; and in a run where everything succeeds the
session id is rewritten before the first call of the first privilege enable. -/
theorem C10_counterexample :
    privilegeEnabled noPrivileges SE_INCREASE_QUOTA_NAME = false ∧
    privilegeEnabled noPrivileges SE_ASSIGNPRIMARYTOKEN_NAME = false ∧
    privilegeEnabled noPrivileges SE_TCB_NAME = false ∧
    Event.wtsGetActiveConsoleSessionId
      ∈ (_tmain noPrivileges [wstr "ServiceUIClone.exe", wstr "cmd.exe"]).trace ∧
    Event.duplicateTokenEx (.valid .processToken) true
      ∈ (_tmain noPrivileges [wstr "ServiceUIClone.exe", wstr "cmd.exe"]).trace ∧
    Event.setTokenInformation (.valid .duplicateToken) 1
      ∈ (_tmain noPrivileges [wstr "ServiceUIClone.exe", wstr "cmd.exe"]).trace ∧
    (_tmain allSucceed [wstr "ServiceUIClone.exe", wstr "cmd.exe"]).trace.indexOf
        (Event.setTokenInformation (.valid .duplicateToken) 1)
      < (_tmain allSucceed [wstr "ServiceUIClone.exe", wstr "cmd.exe"]).trace.indexOf
        (Event.openProcessToken (.privilegeToken SE_INCREASE_QUOTA_NAME) true) := by
  refine ⟨by decide, by decide, by decide, by decide, by decide, by decide, by decide⟩

/-- C10, amended.  The calls of every run are made in the program order of `_tmain`:
self-impersonation, session query, opening and duplicating the token, reverting, session
rebinding, then the three privilege enables, then process creation and the wait.  So whenever
a call of a privilege enable (or of a later stage) is made, the session has already been
queried, the token duplicated and the session id of the duplicate rewritten, and these come
before every call of the privilege and launch stages; and a call of the launch stage is made
only when all three privilege enables returned success. -/
theorem C10_stage_order (os : OS) (argv : List WString) :
    (callPositions (_tmain os argv).trace).Pairwise (· ≤ ·) ∧
    (∀ e ∈ (_tmain os argv).trace, 7 ≤ e.position →
      ∃ pre post, (_tmain os argv).trace = pre ++ post ∧
        Event.wtsGetActiveConsoleSessionId ∈ pre ∧
        Event.duplicateTokenEx (.valid .processToken) true ∈ pre ∧
        Event.setTokenInformation (.valid .duplicateToken)
          (os.activeConsoleSessionId % 2 ^ 32) ∈ pre ∧
        (∀ a ∈ pre, a.position ≤ 6) ∧
        (∀ b ∈ post, b.position = 0 ∨ 7 ≤ b.position)) ∧
    (∀ e ∈ (_tmain os argv).trace, 10 ≤ e.position →
      privilegeEnabled os SE_INCREASE_QUOTA_NAME = true ∧
      privilegeEnabled os SE_ASSIGNPRIMARYTOKEN_NAME = true ∧
      privilegeEnabled os SE_TCB_NAME = true) := by
  have hno : ∀ e ∈ (_tmain os argv).trace, ∀ s : Step, s.position < e.position →
      s.fails os argv = false := by
    intro e he s hlt
    by_contra hf
    have := (tmain_failure os argv s (by simpa using hf)).2 e he
    omega
  refine ⟨tmain_order os argv, ?_, ?_⟩
  · intro e he h7
    obtain ⟨pre, wait, cmd, htr, hw, hd, hs, -, -, hpre⟩ :=
      tmain_through_rebinding os argv (fun s hs6 => hno e he s (by omega))
    exact ⟨pre, _, htr, hw, hd, hs, hpre, enableEvents_position os wait cmd _⟩
  · intro e he h10
    have h7 := hno e he .enableIncreaseQuota (by simp only [Step.position]; omega)
    have h8 := hno e he .enableAssignPrimaryToken (by simp only [Step.position]; omega)
    have h9 := hno e he .enableTcb (by simp only [Step.position]; omega)
    simpa [Step.fails] using And.intro h7 (And.intro h8 h9)

/-- Witness for C10: in a run where everything succeeds `CreateProcessAsUser` is called, so
the three privilege enables returned success. -/
theorem C10_stage_order_witness :
    Event.createProcessAsUser (.valid .duplicateToken) (wstr "cmd.exe") true
      ∈ (_tmain allSucceed [wstr "ServiceUIClone.exe", wstr "cmd.exe"]).trace ∧
    privilegeEnabled allSucceed SE_TCB_NAME = true :=
  ⟨by decide,
    ((C10_stage_order allSucceed [wstr "ServiceUIClone.exe", wstr "cmd.exe"]).2.2
      (Event.createProcessAsUser (.valid .duplicateToken) (wstr "cmd.exe") true) (by decide)
      (by decide)).2.2⟩

/-! ## The outcome of `RevertToSelf` -/

theorem differInOutputOnly_refl (t : List Event) : differInOutputOnly t t :=
  ⟨t, [], [], [], by simp, by simp, by simp, by simp⟩

theorem differInOutputOnly_cons (e : Event) {t t' : List Event}
    (h : differInOutputOnly t t') : differInOutputOnly (e :: t) (e :: t') := by
  obtain ⟨pre, d, d', post, h1, h2, h3, h4⟩ := h
  exact ⟨e :: pre, d, d', post, by simp [h1], by simp [h2], h3, h4⟩

theorem differInOutputOnly_append_left (s : List Event) {t t' : List Event}
    (h : differInOutputOnly t t') : differInOutputOnly (s ++ t) (s ++ t') := by
  induction s with
  | nil => simpa using h
  | cons e s ih => exact differInOutputOnly_cons e ih

theorem differInOutputOnly_block (d d' post : List Event)
    (h : ∀ e ∈ d, e.isOSCall = false) (h' : ∀ e ∈ d', e.isOSCall = false) :
    differInOutputOnly (d ++ post) (d' ++ post) :=
  ⟨[], d, d', post, by simp, by simp, h, h'⟩

theorem differInOutputOnly_filter {t t' : List Event} (h : differInOutputOnly t t') :
    t.filter Event.isOSCall = t'.filter Event.isOSCall := by
  obtain ⟨pre, d, d', post, h1, h2, h3, h4⟩ := h
  have e1 : d.filter Event.isOSCall = [] := by
    rw [List.filter_eq_nil_iff]; intro e he; simp [h3 e he]
  have e2 : d'.filter Event.isOSCall = [] := by
    rw [List.filter_eq_nil_iff]; intro e he; simp [h4 e he]
  rw [h1, h2]
  simp [e1, e2]

@[simp] theorem withRevert_revertToSelf (os : OS) (r : Win32Result) :
    (os.withRevert r).revertToSelf = r := rfl

@[simp] theorem withRevert_openProcessToken (os : OS) (r : Win32Result) :
    (os.withRevert r).openProcessToken = os.openProcessToken := rfl

@[simp] theorem withRevert_duplicateTokenEx (os : OS) (r : Win32Result) :
    (os.withRevert r).duplicateTokenEx = os.duplicateTokenEx := rfl

@[simp] theorem withRevert_setTokenInformation (os : OS) (r : Win32Result) :
    (os.withRevert r).setTokenInformation = os.setTokenInformation := rfl

@[simp] theorem withRevert_impersonateSelf (os : OS) (r : Win32Result) :
    (os.withRevert r).impersonateSelf = os.impersonateSelf := rfl

@[simp] theorem withRevert_activeConsoleSessionId (os : OS) (r : Win32Result) :
    (os.withRevert r).activeConsoleSessionId = os.activeConsoleSessionId := rfl

@[simp] theorem withRevert_initialLastError (os : OS) (r : Win32Result) :
    (os.withRevert r).initialLastError = os.initialLastError := rfl

@[simp] theorem errorLine_withRevert (os : OS) (r : Win32Result) (msg : WString) (c : Nat) :
    errorLine (os.withRevert r) msg c = errorLine os msg c := rfl

@[simp] theorem enablePrivileges_withRevert (os : OS) (r : Win32Result) (wait : Bool)
    (cmd : WString) (sid : Nat) (hp hd : HandleWrapper) (w : World) :
    enablePrivileges (os.withRevert r) wait cmd sid hp hd w
      = enablePrivileges os wait cmd sid hp hd w := rfl

theorem forge_revert (os : OS) (r r' : Win32Result) (wait : Bool) (cmd : WString) (sid : Nat)
    (w : World) :
    (forgeToken (os.withRevert r) wait cmd sid w).1
      = (forgeToken (os.withRevert r') wait cmd sid w).1 ∧
    differInOutputOnly (forgeToken (os.withRevert r) wait cmd sid w).2.trace
      (forgeToken (os.withRevert r') wait cmd sid w).2.trace := by
  unfold forgeToken
  simp only [World.call_fst, withRevert_revertToSelf, withRevert_openProcessToken,
    withRevert_duplicateTokenEx, withRevert_setTokenInformation, errorLine_withRevert,
    enablePrivileges_withRevert]
  cases os.openProcessToken <;> cases os.duplicateTokenEx <;> cases os.setTokenInformation <;>
    cases r <;> cases r' <;>
    simp only [Win32Result.succeeded, Bool.true_eq_false, Bool.false_eq_true, if_true, if_false]
  all_goals constructor
  all_goals try first | exact enablePrivileges_fst .. | exact trivial | with_reducible rfl
  all_goals simp [enablePrivileges_trace, HandleWrapper.get, Win32Result.lastErrorAfter]
  all_goals apply differInOutputOnly_append_left
  all_goals repeat apply differInOutputOnly_cons
  all_goals
    first
    | exact differInOutputOnly_refl _
    | exact differInOutputOnly_block [_, _] [_] _ (by simp [Event.isOSCall])
        (by simp [Event.isOSCall])
    | exact differInOutputOnly_block [_] [_, _] _ (by simp [Event.isOSCall])
        (by simp [Event.isOSCall])
    | exact differInOutputOnly_block [_, _] [_, _] _ (by simp [Event.isOSCall])
        (by simp [Event.isOSCall])

theorem pipeline_revert (os : OS) (r r' : Win32Result) (wait : Bool) (cmd : WString)
    (w : World) :
    (pipeline (os.withRevert r) wait cmd w).1 = (pipeline (os.withRevert r') wait cmd w).1 ∧
    differInOutputOnly (pipeline (os.withRevert r) wait cmd w).2.trace
      (pipeline (os.withRevert r') wait cmd w).2.trace := by
  unfold pipeline
  simp only [World.call_fst, withRevert_impersonateSelf, withRevert_activeConsoleSessionId,
    errorLine_withRevert, PrintError, LogMessage]
  split_ifs
  · exact ⟨rfl, differInOutputOnly_refl _⟩
  · exact ⟨rfl, differInOutputOnly_refl _⟩
  · exact forge_revert os r r' wait cmd _ _

/-- Changing the answer of `RevertToSelf` changes neither the value of `_tmain` nor the trace,
up to one block of output. -/
theorem tmain_revert (os : OS) (r r' : Win32Result) (argv : List WString) :
    (_tmain (os.withRevert r) argv).result = (_tmain (os.withRevert r') argv).result ∧
    differInOutputOnly (_tmain (os.withRevert r) argv).trace
      (_tmain (os.withRevert r') argv).trace := by
  cases ha : assemble argv with
  | usageError =>
    rw [tmain_usageError _ argv ha, tmain_usageError _ argv ha]
    exact ⟨rfl, differInOutputOnly_refl _⟩
  | emptyCommand =>
    rw [tmain_emptyCommand _ argv ha, tmain_emptyCommand _ argv ha]
    exact ⟨rfl, differInOutputOnly_refl _⟩
  | commandTooLong =>
    rw [tmain_commandTooLong _ argv ha, tmain_commandTooLong _ argv ha]
    exact ⟨rfl, differInOutputOnly_refl _⟩
  | ok wait cmd =>
    rw [tmain_ok _ argv wait cmd ha, tmain_ok _ argv wait cmd ha]
    exact pipeline_revert os r r' wait cmd ⟨os.initialLastError, []⟩

/-- C11.  A failing `RevertToSelf` is not fatal: with every other answer of the operating
system unchanged, the run in which `RevertToSelf` fails (with any error code) returns the
same value as the run in which it succeeds, makes the same calls into the operating system in
the same order with the same arguments, and its trace differs from the other one in at most
one block of console and log lines. -/
theorem C11_revert_not_fatal (os : OS) (argv : List WString) (err : Nat) :
    (_tmain (os.withRevert (.fail err)) argv).result
      = (_tmain (os.withRevert .ok) argv).result ∧
    (_tmain (os.withRevert (.fail err)) argv).trace.filter Event.isOSCall
      = (_tmain (os.withRevert .ok) argv).trace.filter Event.isOSCall ∧
    differInOutputOnly (_tmain (os.withRevert (.fail err)) argv).trace
      (_tmain (os.withRevert .ok) argv).trace := by
  obtain ⟨h1, h2⟩ := tmain_revert os (.fail err) .ok argv
  exact ⟨h1, differInOutputOnly_filter h2, h2⟩

/-! ## What the log depends on -/

@[simp] theorem logged_nil : logged [] = [] := rfl

@[simp] theorem logged_append (t u : List Event) : logged (t ++ u) = logged t ++ logged u := by
  simp [logged]

theorem logged_cons (e : Event) (t : List Event) :
    logged (e :: t) = logged [e] ++ logged t := by
  simp [logged, List.filterMap_cons]
  cases e <;> simp

@[simp] theorem logged_cons_log (m : WString) (t : List Event) :
    logged (.log m :: t) = m :: logged t := by
  simp [logged, List.filterMap_cons]

theorem logged_cons_of_isOSCall (e : Event) (t : List Event) (h : e.isOSCall = true) :
    logged (e :: t) = logged t := by
  cases e <;> simp [logged, List.filterMap_cons, Event.isOSCall] at h ⊢

@[simp] theorem logged_cons_stderr (m : WString) (t : List Event) :
    logged (.stderr m :: t) = logged t := by
  simp [logged, List.filterMap_cons]

@[simp] theorem logged_cons_stdout (m : WString) (t : List Event) :
    logged (.stdout m :: t) = logged t := by
  simp [logged, List.filterMap_cons]

theorem launchEvents_logged (os : OS) (wait : Bool) (c c' : WString) (sid : Nat)
    (hp hd : HandleWrapper) (e0 : Nat) :
    logged (launchEvents os wait c sid hp hd e0) = logged (launchEvents os wait c' sid hp hd e0) := by
  unfold launchEvents launchAndWait
  simp only [World.call_fst]
  split_ifs <;> simp [logged_cons_of_isOSCall, Event.isOSCall]

theorem enableEvents_logged (os : OS) (wait : Bool) (c c' : WString) (sid : Nat)
    (hp hd : HandleWrapper) :
    logged (enableEvents os wait c sid hp hd) = logged (enableEvents os wait c' sid hp hd) := by
  have hl := launchEvents_logged os wait c c' sid hp hd (privilegeLastError os SE_TCB_NAME)
  unfold enableEvents enablePrivileges
  simp only [EnablePrivilege_fst]
  split_ifs <;> simp [launchAndWait_trace, hl]

theorem forgeEvents_logged (os : OS) (wait : Bool) (c c' : WString) (sid : Nat) (e0 : Nat) :
    logged (forgeEvents os wait c sid e0) = logged (forgeEvents os wait c' sid e0) := by
  have he := enableEvents_logged os wait c c' sid ⟨.valid .processToken⟩ ⟨.valid .duplicateToken⟩
  unfold forgeEvents forgeToken
  simp only [World.call_fst]
  split_ifs <;> simp [enablePrivileges_trace, he, logged_cons_of_isOSCall, Event.isOSCall]

/-- The log of a pipeline run is the line with the command line, followed by lines that do
not depend on the command line (those of the run on the empty command line). -/
theorem pipeline_logged (os : OS) (wait : Bool) (c : WString) (e0 : Nat) :
    logged (pipeline os wait c ⟨e0, []⟩).2.trace
      = (wstr "Command line to launch: " ++ c)
        :: (logged (pipeline os wait [] ⟨e0, []⟩).2.trace).tail := by
  have hf := fun e0 => forgeEvents_logged os wait c [] (os.activeConsoleSessionId % 2 ^ 32) e0
  unfold pipeline
  simp only [World.call_fst]
  split_ifs <;> simp [forgeToken_trace, logged_cons_of_isOSCall, Event.isOSCall]
  exact hf _

/-- C12, as stated, fails: two runs without wait mode on the same operating system, one on the
command line `a` and one on `b`, log different messages. -/
theorem C12_counterexample :
    assemble [wstr "ServiceUIClone.exe", wstr "a"] = .ok false (wstr "a") ∧
    assemble [wstr "ServiceUIClone.exe", wstr "b"] = .ok false (wstr "b") ∧
    logged (_tmain allSucceed [wstr "ServiceUIClone.exe", wstr "a"]).trace
      ≠ logged (_tmain allSucceed [wstr "ServiceUIClone.exe", wstr "b"]).trace ∧
    (logged (_tmain allSucceed [wstr "ServiceUIClone.exe", wstr "a"]).trace).head?
      = some (wstr "Command line to launch: a") := by
  refine ⟨by rfl, by rfl, by decide, by rfl⟩

/-- C12, amended.  The first message a pipeline run logs is `Command line to launch: `
followed by the command line.  For two runs with the same wait flag and the same answers of
the operating system but different command lines, the sequences of logged messages are
identical from the second message on. -/
theorem C12_log_content (os : OS) (argv argv' : List WString) (wait : Bool) (cmd cmd' : WString)
    (h : assemble argv = .ok wait cmd) (h' : assemble argv' = .ok wait cmd') :
    (logged (_tmain os argv).trace).head? = some (wstr "Command line to launch: " ++ cmd) ∧
    (logged (_tmain os argv').trace).head? = some (wstr "Command line to launch: " ++ cmd') ∧
    (logged (_tmain os argv).trace).tail = (logged (_tmain os argv').trace).tail := by
  rw [tmain_ok os argv wait cmd h, tmain_ok os argv' wait cmd' h']
  simp only [pipeline_logged os wait cmd, pipeline_logged os wait cmd', List.head?_cons,
    List.tail_cons, and_self]

/-- Witness for C12: the command lines `a` and `b` without wait mode. -/
theorem C12_log_content_witness :
    assemble [wstr "ServiceUIClone.exe", wstr "a"] = .ok false (wstr "a") ∧
    assemble [wstr "ServiceUIClone.exe", wstr "b"] = .ok false (wstr "b") ∧
    (logged (_tmain allSucceed [wstr "ServiceUIClone.exe", wstr "a"]).trace).tail
      = (logged (_tmain allSucceed [wstr "ServiceUIClone.exe", wstr "b"]).trace).tail :=
  ⟨by rfl, by rfl,
    (C12_log_content allSucceed [wstr "ServiceUIClone.exe", wstr "a"]
      [wstr "ServiceUIClone.exe", wstr "b"] false (wstr "a") (wstr "b") (by rfl) (by rfl)).2.2⟩

/-! ## `EnablePrivilege` and the wait block -/

/-- The value, the events and the handle use of one `EnablePrivilege`, by the answers to its
three calls. -/
theorem EnablePrivilege_spec (os : OS) (n : WString) (w : World) :
    ((EnablePrivilege os n w).1 = true ↔
      (os.privilege n).openProcessToken.succeeded = true ∧
      (os.privilege n).lookupPrivilegeValue.succeeded = true ∧
      (os.privilege n).adjustTokenPrivileges.succeeded = true ∧
      (os.privilege n).adjustLastError = ERROR_SUCCESS) ∧
    acquired (privilegeEvents os n) (.privilegeToken n)
      = (if (os.privilege n).openProcessToken.succeeded = true then 1 else 0) ∧
    released (privilegeEvents os n) (.privilegeToken n)
      = acquired (privilegeEvents os n) (.privilegeToken n) ∧
    ((os.privilege n).openProcessToken.succeeded = true →
      (privilegeEvents os n).getLast? = some (.closeHandle (.valid (.privilegeToken n)))) := by
  unfold privilegeEvents EnablePrivilege
  generalize os.privilege n = p
  rcases p with ⟨o, l, a, e⟩
  cases o <;> cases l <;> cases a <;>
    simp [HandleWrapper.reset, HandleWrapper.get, Win32Result.succeeded, Event.acquires,
      Event.releases, ERROR_SUCCESS]

/-- C15.  For every privilege name, `EnablePrivilege` returns true exactly when opening the
process token, looking up the privilege and adjusting the token all succeed and the last
error left by the adjustment is `ERROR_SUCCESS`; an adjustment that returns success and
leaves another last error (the privilege is not held) gives false.  The token handle is
acquired exactly when the open succeeds, is closed as often as it is acquired, and closing
it is the last event of the call. -/
theorem C15_enable_privilege (os : OS) (privilegeName : WString) (w : World) :
    ((EnablePrivilege os privilegeName w).1 = true ↔
      (os.privilege privilegeName).openProcessToken.succeeded = true ∧
      (os.privilege privilegeName).lookupPrivilegeValue.succeeded = true ∧
      (os.privilege privilegeName).adjustTokenPrivileges.succeeded = true ∧
      (os.privilege privilegeName).adjustLastError = ERROR_SUCCESS) ∧
    ((os.privilege privilegeName).adjustLastError ≠ ERROR_SUCCESS →
      (EnablePrivilege os privilegeName w).1 = false) ∧
    (EnablePrivilege os privilegeName w).2.trace = w.trace ++ privilegeEvents os privilegeName ∧
    acquired (privilegeEvents os privilegeName) (.privilegeToken privilegeName)
      = (if (os.privilege privilegeName).openProcessToken.succeeded = true then 1 else 0) ∧
    released (privilegeEvents os privilegeName) (.privilegeToken privilegeName)
      = acquired (privilegeEvents os privilegeName) (.privilegeToken privilegeName) ∧
    ((os.privilege privilegeName).openProcessToken.succeeded = true →
      (privilegeEvents os privilegeName).getLast?
        = some (.closeHandle (.valid (.privilegeToken privilegeName)))) := by
  obtain ⟨h1, h2, h3, h4⟩ := EnablePrivilege_spec os privilegeName w
  refine ⟨h1, ?_, EnablePrivilege_trace os privilegeName w, h2, h3, h4⟩
  intro hne
  cases hv : (EnablePrivilege os privilegeName w).1
  · rfl
  · exact absurd (h1.mp hv).2.2.2 hne

/-- Witness for C15: a token that does not hold `SeTcbPrivilege`; the adjustment returns
success and leaves error 1300, `EnablePrivilege` returns false and closes its token. -/
theorem C15_enable_privilege_witness :
    (tcbMissing.privilege SE_TCB_NAME).adjustTokenPrivileges.succeeded = true ∧
    (tcbMissing.privilege SE_TCB_NAME).adjustLastError ≠ ERROR_SUCCESS ∧
    (EnablePrivilege tcbMissing SE_TCB_NAME ⟨0, []⟩).1 = false ∧
    released (privilegeEvents tcbMissing SE_TCB_NAME) (.privilegeToken SE_TCB_NAME) = 1 :=
  ⟨by decide, by decide,
    (C15_enable_privilege tcbMissing SE_TCB_NAME ⟨0, []⟩).2.1 (by decide),
    ((C15_enable_privilege tcbMissing SE_TCB_NAME ⟨0, []⟩).2.2.2.2.1).trans
      (((C15_enable_privilege tcbMissing SE_TCB_NAME ⟨0, []⟩).2.2.2.1).trans (by decide))⟩

/-- The message of the error reported by the wait block when the wait result is `waitResult`
and the run falls through to the cleanup. -/
theorem launchEvents_wait_failure (os : OS) (cmd : WString) (sid e0 : Nat)
    (hc : os.createProcessAsUser.succeeded = true)
    (hw : os.waitForSingleObject % 2 ^ 32 ≠ WAIT_OBJECT_0 ∨
      os.getExitCodeProcess.succeeded = false) :
    ∃ code,
      [Event.stderr (errorLine os
          (if os.waitForSingleObject % 2 ^ 32 = WAIT_OBJECT_0
            then wstr "Failed to get exit code from process."
            else wstr "WaitForSingleObject failed.") code),
        .log (errorLine os
          (if os.waitForSingleObject % 2 ^ 32 = WAIT_OBJECT_0
            then wstr "Failed to get exit code from process."
            else wstr "WaitForSingleObject failed.") code),
        .closeHandle (.valid .childProcess), .closeHandle (.valid .childThread),
        .closeHandle (.valid .duplicateToken), .closeHandle (.valid .processToken)]
      <:+ launchEvents os true cmd sid ⟨.valid .processToken⟩ ⟨.valid .duplicateToken⟩ e0 := by
  unfold launchEvents launchAndWait
  simp only [World.call_fst, hc]
  by_cases h0 : os.waitForSingleObject % 2 ^ 32 = WAIT_OBJECT_0
  · have hq : os.getExitCodeProcess.succeeded = false := by
      rcases hw with hw | hw
      · exact absurd h0 hw
      · exact hw
    simp only [h0, hq, if_true, Bool.true_eq_false, if_false, Bool.false_eq_true]
    refine ⟨os.getExitCodeProcess.lastErrorAfter (os.createProcessAsUser.lastErrorAfter e0), ?_⟩
    simp [List.suffix_cons_iff]
  · simp only [h0, if_true, Bool.true_eq_false, if_false]
    refine ⟨os.waitLastError, ?_⟩
    simp [List.suffix_cons_iff]

/-- When the three privileges are enabled, the events of `enablePrivileges` end with the
events of `launchAndWait`. -/
theorem enableEvents_launch (os : OS) (wait : Bool) (cmd : WString) (sid : Nat)
    (hp hd : HandleWrapper)
    (h7 : privilegeEnabled os SE_INCREASE_QUOTA_NAME = true)
    (h8 : privilegeEnabled os SE_ASSIGNPRIMARYTOKEN_NAME = true)
    (h9 : privilegeEnabled os SE_TCB_NAME = true) :
    ∃ e, launchEvents os wait cmd sid hp hd e <:+ enableEvents os wait cmd sid hp hd := by
  unfold enableEvents enablePrivileges
  simp only [EnablePrivilege_fst, h7, h8, h9, Bool.true_eq_false, if_false]
  rw [launchAndWait_trace]
  exact ⟨_, List.suffix_append _ _⟩

/-- A trace that ends with the closing of the child's two handles closes each at least
once. -/
theorem released_of_suffix (s t : List Event) (r : Resource) (h : s <:+ t) :
    released s r ≤ released t r := by
  obtain ⟨pre, rfl⟩ := h
  simp [released]

/-- The error report followed by the four closings closes each of the child's handles
once. -/
theorem released_wait_failure_tail (m : WString) (r : Resource) :
    released [Event.stderr m, .log m, .closeHandle (.valid .childProcess),
      .closeHandle (.valid .childThread), .closeHandle (.valid .duplicateToken),
      .closeHandle (.valid .processToken)] r
      = if r = .childProcess ∨ r = .childThread ∨ r = .duplicateToken ∨ r = .processToken
        then 1 else 0 := by
  cases r <;> simp [released, Event.releases]

/-- C16.  In wait mode, when no step up to and including process creation fails and either
the wait does not report `WAIT_OBJECT_0` or the exit-code query fails, the launcher returns 0:
the trace ends with the error report (`WaitForSingleObject failed.` in the first case,
`Failed to get exit code from process.` in the second, on the error stream and in the log)
followed by the closing of the child's process and thread handles and of the two token
handles, and the child's process and thread handles are each closed exactly once. -/
theorem C16_wait_failure (os : OS) (argv : List WString) (cmd : WString)
    (ha : assemble argv = .ok true cmd) (hs : ∀ s : Step, s.fails os argv = false)
    (hw : os.waitForSingleObject % 2 ^ 32 ≠ WAIT_OBJECT_0 ∨
      os.getExitCodeProcess.succeeded = false) :
    (_tmain os argv).result = 0 ∧
    (∃ code,
      [Event.stderr (errorLine os
          (if os.waitForSingleObject % 2 ^ 32 = WAIT_OBJECT_0
            then wstr "Failed to get exit code from process."
            else wstr "WaitForSingleObject failed.") code),
        .log (errorLine os
          (if os.waitForSingleObject % 2 ^ 32 = WAIT_OBJECT_0
            then wstr "Failed to get exit code from process."
            else wstr "WaitForSingleObject failed.") code),
        .closeHandle (.valid .childProcess), .closeHandle (.valid .childThread),
        .closeHandle (.valid .duplicateToken), .closeHandle (.valid .processToken)]
      <:+ (_tmain os argv).trace) ∧
    released (_tmain os argv).trace .childProcess = 1 ∧
    released (_tmain os argv).trace .childThread = 1 := by
  have hres := tmain_result_of_success os argv true cmd ha hs
  have h1 := hs .selfImpersonation
  have h2 := hs .sessionResolution
  have h3 := hs .tokenOpening
  have h4 := hs .tokenDuplication
  have h6 := hs .sessionRebinding
  have h7 := hs .enableIncreaseQuota
  have h8 := hs .enableAssignPrimaryToken
  have h9 := hs .enableTcb
  have h10 := hs .processCreation
  simp only [Step.fails, Bool.not_eq_false', decide_eq_false_iff_not] at h1 h2 h3 h4 h6 h7 h8 h9 h10
  obtain ⟨pre, hpre, -⟩ :=
    pipeline_through_rebinding os true cmd os.initialLastError h1 h2 h3 h4 h6
  obtain ⟨e, he⟩ := enableEvents_launch os true cmd (os.activeConsoleSessionId % 2 ^ 32)
    ⟨.valid .processToken⟩ ⟨.valid .duplicateToken⟩ h7 h8 h9
  obtain ⟨code, hcode⟩ :=
    launchEvents_wait_failure os cmd (os.activeConsoleSessionId % 2 ^ 32) e h10 hw
  have hsuf := (hcode.trans he).trans (List.suffix_append pre _)
  have htr : (_tmain os argv).trace
      = (pipeline os true cmd ⟨os.initialLastError, []⟩).2.trace := by
    rw [tmain_ok os argv true cmd ha]
  rw [← hpre, ← htr] at hsuf
  have hrel1 := released_of_suffix _ _ .childProcess hsuf
  have hrel2 := released_of_suffix _ _ .childThread hsuf
  rw [released_wait_failure_tail, if_pos (by simp)] at hrel1 hrel2
  have hh1 := tmain_handles os argv .childProcess
  have hh2 := tmain_handles os argv .childThread
  refine ⟨?_, ⟨code, hsuf⟩, ?_, ?_⟩
  · rw [hres, if_neg]
    rintro ⟨-, h, h'⟩
    rcases hw with hw | hw
    · exact hw h
    · rw [h'] at hw
      cases hw
  · have h := hh1.1
    have h' := hh1.2
    omega
  · have h := hh2.1
    have h' := hh2.2
    omega

set_option maxRecDepth 100000 in
/-- Witness for C16: `/wait cmd.exe` on a system where the exit-code query fails; the run
returns 0 and closes the child's two handles. -/
theorem C16_wait_failure_witness :
    assemble [wstr "ServiceUIClone.exe", wstr "/wait", wstr "cmd.exe"]
      = .ok true (wstr "cmd.exe") ∧
    (∀ s : Step,
      s.fails exitQueryFails [wstr "ServiceUIClone.exe", wstr "/wait", wstr "cmd.exe"] = false) ∧
    exitQueryFails.getExitCodeProcess.succeeded = false ∧
    (_tmain exitQueryFails [wstr "ServiceUIClone.exe", wstr "/wait", wstr "cmd.exe"]).result
      = 0 ∧
    released (_tmain exitQueryFails
      [wstr "ServiceUIClone.exe", wstr "/wait", wstr "cmd.exe"]).trace .childProcess = 1 :=
  ⟨by rfl, by decide, by rfl,
    (C16_wait_failure exitQueryFails [wstr "ServiceUIClone.exe", wstr "/wait", wstr "cmd.exe"]
      (wstr "cmd.exe") (by rfl) (by decide) (Or.inr (by rfl))).1,
    (C16_wait_failure exitQueryFails [wstr "ServiceUIClone.exe", wstr "/wait", wstr "cmd.exe"]
      (wstr "cmd.exe") (by rfl) (by decide) (Or.inr (by rfl))).2.2.1⟩

end ServiceUIClone

namespace BitLockerPINUI

open ServiceUIClone (WString wstr)

/-! ## `ValidatePIN` -/

theorem iswdigit_iff (ch : Char) : iswdigit ch = true ↔ ch ∈ wstr "0123456789" := by
  unfold iswdigit Char.isDigit
  constructor
  · intro h
    simp only [Bool.and_eq_true, decide_eq_true_eq] at h
    obtain ⟨h1, h2⟩ := h
    have h1' : 48 ≤ ch.val.toNat := h1
    have h2' : ch.val.toNat ≤ 57 := h2
    have hc : ch = Char.ofNat ch.val.toNat := (Char.ofNat_toNat ch).symm
    rw [hc]
    generalize ch.val.toNat = n at h1' h2'
    interval_cases n <;> decide
  · intro h
    simp only [wstr, String.toList, List.mem_cons, List.mem_singleton] at h
    simp at h
    rcases h with h | h | h | h | h | h | h | h | h | h <;> subst h <;> decide

theorem ValidatePIN_loop_iff (pin : WString) :
    ValidatePIN.loop pin = true ↔ ∀ ch ∈ pin, iswdigit ch = true := by
  induction pin with
  | nil => simp [ValidatePIN.loop]
  | cons ch rest ih =>
    unfold ValidatePIN.loop
    cases h : iswdigit ch <;> simp [h, ih]

theorem ValidatePIN_iff (pin : WString) :
    ValidatePIN pin = true ↔
      8 ≤ pin.length ∧ pin.length ≤ 20 ∧ ∀ ch ∈ pin, iswdigit ch = true := by
  unfold ValidatePIN
  split_ifs with h
  · simp only [Bool.or_eq_true, decide_eq_true_eq] at h
    constructor
    · intro h'
      cases h'
    · rintro ⟨h1, h2, -⟩
      omega
  · simp only [Bool.or_eq_true, decide_eq_true_eq, not_or, not_lt] at h
    rw [ValidatePIN_loop_iff]
    exact ⟨fun h' => ⟨h.1, h.2, h'⟩, fun h' => h'.2.2⟩

/-- C14.  `ValidatePIN pin` is true exactly when `pin` has at least 8 and at most 20
characters and every one of them is a decimal digit, that is one of the ten characters `0`
to `9`.  So a string of 7 or of 21 characters is rejected, an all-digit string of 8 or of 20
characters is accepted, and a string holding any character that is not a digit (a sign, a
space or a letter among them) is rejected. -/
theorem C14_validate_pin (pin : WString) :
    (ValidatePIN pin = true ↔
      8 ≤ pin.length ∧ pin.length ≤ 20 ∧ ∀ ch ∈ pin, ch ∈ wstr "0123456789") ∧
    (pin.length = 7 ∨ pin.length = 21 → ValidatePIN pin = false) ∧
    (pin.length = 8 ∨ pin.length = 20 → (∀ ch ∈ pin, ch ∈ wstr "0123456789") →
      ValidatePIN pin = true) ∧
    ((∃ ch ∈ pin, ch ∉ wstr "0123456789") → ValidatePIN pin = false) ∧
    (∀ ch : Char, ch = '+' ∨ ch = '-' ∨ ch = ' ' ∨ ch.isAlpha = true →
      ch ∉ wstr "0123456789") := by
  have key : ValidatePIN pin = true ↔
      8 ≤ pin.length ∧ pin.length ≤ 20 ∧ ∀ ch ∈ pin, ch ∈ wstr "0123456789" := by
    rw [ValidatePIN_iff]
    simp only [iswdigit_iff]
  refine ⟨key, ?_, ?_, ?_, ?_⟩
  · intro h
    cases hv : ValidatePIN pin
    · rfl
    · have := key.mp hv
      omega
  · intro h hd
    exact key.mpr ⟨by omega, by omega, hd⟩
  · rintro ⟨ch, hch, hnd⟩
    cases hv : ValidatePIN pin
    · rfl
    · exact absurd ((key.mp hv).2.2 ch hch) hnd
  · intro ch h hd
    rw [← iswdigit_iff] at hd
    rcases h with h | h | h | h
    · subst h; exact absurd hd (by decide)
    · subst h; exact absurd hd (by decide)
    · subst h; exact absurd hd (by decide)
    · unfold iswdigit Char.isDigit at hd
      unfold Char.isAlpha Char.isUpper Char.isLower at h
      simp only [Bool.and_eq_true, Bool.or_eq_true, decide_eq_true_eq] at h hd
      have h1 : 48 ≤ ch.val.toNat := hd.1
      have h2 : ch.val.toNat ≤ 57 := hd.2
      rcases h with ⟨h3, -⟩ | ⟨h3, -⟩
      · have h3' : 65 ≤ ch.val.toNat := h3
        omega
      · have h3' : 97 ≤ ch.val.toNat := h3
        omega

/-- Witness for C14: `12345678` is accepted, `1234567` (7 characters) and `1234567a` (a
letter) are rejected. -/
theorem C14_validate_pin_witness :
    ValidatePIN (wstr "12345678") = true ∧ ValidatePIN (wstr "1234567") = false ∧
    ValidatePIN (wstr "1234567a") = false :=
  ⟨(C14_validate_pin (wstr "12345678")).2.2.1 (Or.inl (by rfl)) (by decide),
    (C14_validate_pin (wstr "1234567")).2.1 (Or.inl (by rfl)),
    (C14_validate_pin (wstr "1234567a")).2.2.2.1 ⟨'a', by decide, by decide⟩⟩

/-! ## What the dialog logs -/

@[simp] theorem logMessages_nil : logMessages [] = [] := rfl

@[simp] theorem logMessages_append (s t : List Event) :
    logMessages (s ++ t) = logMessages s ++ logMessages t := by
  simp [logMessages]

@[simp] theorem logMessages_cons_log (msg : WString) (t : List Event) :
    logMessages (.log msg :: t) = msg :: logMessages t := rfl

@[simp] theorem logMessages_cons_messageBox (text caption : WString) (t : List Event) :
    logMessages (.messageBox text caption :: t) = logMessages t := rfl

@[simp] theorem logMessages_cons_call (stage : Stage) (t : List Event) :
    logMessages (.call stage :: t) = logMessages t := rfl

@[simp] theorem logMessages_cons_putPin (pin : WString) (t : List Event) :
    logMessages (.putPin pin :: t) = logMessages t := rfl

/-- The value and the log of a submission are fixed by the first stage that fails. -/
theorem SetBitLockerPinWMI_spec (wmi : WMI) (pin : WString) :
    (SetBitLockerPinWMI wmi pin).1 = (firstFailure wmi).isNone ∧
    logMessages (SetBitLockerPinWMI wmi pin).2 = submissionLog (firstFailure wmi) := by
  unfold SetBitLockerPinWMI firstFailure Stage.order
  simp only [LogMessage, List.find?_cons, Stage.failed]
  cases h1 : FAILED wmi.coInitializeEx
  swap
  · simp [submissionLog, Stage.failureLog]
  simp only [Bool.false_eq_true, if_false]
  cases h2 : FAILED wmi.coInitializeSecurity
  swap
  · simp [submissionLog, Stage.failureLog]
  simp only [Bool.false_eq_true, if_false]
  cases h3 : FAILED wmi.coCreateInstance
  swap
  · simp [submissionLog, Stage.failureLog]
  simp only [Bool.false_eq_true, if_false]
  cases h4 : FAILED wmi.connectServer
  swap
  · simp [submissionLog, Stage.failureLog]
  simp only [Bool.false_eq_true, if_false]
  cases h5 : FAILED wmi.coSetProxyBlanket
  swap
  · simp [submissionLog, Stage.failureLog]
  simp only [Bool.false_eq_true, if_false]
  cases h6 : FAILED wmi.execQuery
  swap
  · simp [submissionLog, Stage.failureLog]
  simp only [Bool.false_eq_true, if_false]
  cases h7 : (FAILED wmi.next || wmi.uReturn % 2 ^ 32 == 0)
  swap
  · simp [submissionLog, Stage.failureLog]
  simp only [Bool.false_eq_true, if_false]
  cases h8 : FAILED wmi.getPath
  swap
  · simp [submissionLog, Stage.failureLog]
  simp only [Bool.false_eq_true, if_false]
  cases h9 : FAILED wmi.getObject
  swap
  · simp [submissionLog, Stage.failureLog]
  simp only [Bool.false_eq_true, if_false]
  cases h10 : FAILED wmi.getMethod
  swap
  · simp [submissionLog, Stage.failureLog]
  simp only [Bool.false_eq_true, if_false]
  cases h11 : FAILED wmi.spawnInstance
  swap
  · simp [submissionLog, Stage.failureLog]
  simp only [Bool.false_eq_true, if_false]
  cases h12 : FAILED wmi.putKeyProtectorType
  swap
  · simp [submissionLog, Stage.failureLog]
  simp only [Bool.false_eq_true, if_false]
  cases h13 : FAILED wmi.putPin
  swap
  · simp [submissionLog, Stage.failureLog]
  simp only [Bool.false_eq_true, if_false]
  cases h14 : SUCCEEDED wmi.execMethod
  · simp [submissionLog, Stage.failureLog]
  simp only [if_true, Bool.not_true]
  cases h15 : (SUCCEEDED wmi.getReturnValue && wmi.returnVt == VT_I4 && wmi.returnIntVal == 0)
  · simp [submissionLog, Stage.failureLog]
  · simp [submissionLog, Stage.failureLog]

/-- The log of a click on `Set PIN` is fixed by its outcome. -/
theorem WindowProc_log (wmi : WMI) (newPinText rePinText : WString) :
    logMessages (WindowProc_IDC_BUTTON_SETPIN wmi newPinText rePinText)
      = outcomeLog (outcome wmi newPinText rePinText) := by
  obtain ⟨h1, h2⟩ := SetBitLockerPinWMI_spec wmi (GetWindowText newPinText 256)
  unfold WindowProc_IDC_BUTTON_SETPIN outcome
  simp only [LogMessage, h1, List.isEmpty_iff, Bool.or_eq_true, decide_eq_true_eq]
  split_ifs <;> simp_all [outcomeLog, submissionLog]
  all_goals cases hf : firstFailure wmi <;> simp_all [outcomeLog, submissionLog]

/-- A string with a validated PIN inside has eight decimal digits in a row. -/
theorem digitRun_of_validated_inside (pin m : WString) (hv : ValidatePIN pin = true)
    (h : pin <:+: m) : hasDigitRun 8 m = true := by
  obtain ⟨hlen, -, hd⟩ := (ValidatePIN_iff pin).mp hv
  obtain ⟨s, u, rfl⟩ := h
  unfold hasDigitRun
  rw [List.any_eq_true]
  refine ⟨pin ++ u, ?_, ?_⟩
  · rw [List.mem_tails]
    exact ⟨s, by simp⟩
  · unfold digitRunAt
    simp only [Bool.and_eq_true, decide_eq_true_eq, List.all_eq_true, List.length_append]
    refine ⟨by omega, ?_⟩
    intro ch hch
    rw [List.take_append_of_le_length hlen] at hch
    exact hd ch (List.mem_of_mem_take hch)

theorem failureLog_no_digit_run (stage : Stage) :
    ∀ m ∈ stage.failureLog, hasDigitRun 8 m = false := by
  cases stage <;> decide

theorem outcomeLog_no_digit_run (o : Outcome) : ∀ m ∈ outcomeLog o, hasDigitRun 8 m = false := by
  cases o with
  | submissionFailed stage =>
    intro m hm
    simp only [outcomeLog, List.cons_append, List.mem_cons, List.mem_append,
      List.mem_singleton, List.not_mem_nil, or_false] at hm
    rcases hm with rfl | hm | rfl
    · decide
    · exact failureLog_no_digit_run stage m hm
    · decide
  | _ => decide

/-- C13.  The messages logged by a click on `Set PIN`, and by `SetBitLockerPinWMI`, are fixed
texts selected by the outcome alone: a field empty, the two texts different, validation
failed, submission succeeded, or the stage at which the submission failed.  So two clicks that
reach the same outcome log the same messages, whatever the texts entered and whatever the
answers of WMI; the log of `SetBitLockerPinWMI` does not depend on its argument; and no PIN
accepted by `ValidatePIN` is a substring of a logged message. -/
theorem C13_pin_not_logged (wmi wmi' : WMI) (newPinText rePinText newPinText' rePinText' : WString)
    (pin pin' : WString) :
    logMessages (WindowProc_IDC_BUTTON_SETPIN wmi newPinText rePinText)
      = outcomeLog (outcome wmi newPinText rePinText) ∧
    logMessages (SetBitLockerPinWMI wmi pin).2 = submissionLog (firstFailure wmi) ∧
    (outcome wmi newPinText rePinText = outcome wmi' newPinText' rePinText' →
      logMessages (WindowProc_IDC_BUTTON_SETPIN wmi newPinText rePinText)
        = logMessages (WindowProc_IDC_BUTTON_SETPIN wmi' newPinText' rePinText')) ∧
    logMessages (SetBitLockerPinWMI wmi pin).2 = logMessages (SetBitLockerPinWMI wmi pin').2 ∧
    (ValidatePIN pin = true →
      (∀ m ∈ logMessages (WindowProc_IDC_BUTTON_SETPIN wmi newPinText rePinText), ¬ pin <:+: m) ∧
      (∀ m ∈ logMessages (SetBitLockerPinWMI wmi pin').2, ¬ pin <:+: m)) := by
  refine ⟨WindowProc_log wmi newPinText rePinText, (SetBitLockerPinWMI_spec wmi pin).2, ?_, ?_,
    ?_⟩
  · intro h
    rw [WindowProc_log, WindowProc_log, h]
  · rw [(SetBitLockerPinWMI_spec wmi pin).2, (SetBitLockerPinWMI_spec wmi pin').2]
  · intro hv
    constructor
    · intro m hm hin
      rw [WindowProc_log] at hm
      have h1 := outcomeLog_no_digit_run _ m hm
      rw [digitRun_of_validated_inside pin m hv hin] at h1
      cases h1
    · intro m hm hin
      rw [(SetBitLockerPinWMI_spec wmi pin').2] at hm
      have h1 : hasDigitRun 8 m = false := by
        cases hf : firstFailure wmi with
        | none => rw [hf] at hm; cases hm
        | some stage => rw [hf] at hm; exact failureLog_no_digit_run stage m hm
      rw [digitRun_of_validated_inside pin m hv hin] at h1
      cases h1

/-- Witness for C13: the PINs `12345678` and `87654321`, each typed twice, under an oracle
where `ExecMethod` fails: same outcome, same log, and `12345678` is in none of the messages. -/
theorem C13_pin_not_logged_witness :
    outcome execMethodFails (wstr "12345678") (wstr "12345678")
      = outcome execMethodFails (wstr "87654321") (wstr "87654321") ∧
    ValidatePIN (wstr "12345678") = true ∧
    logMessages (WindowProc_IDC_BUTTON_SETPIN execMethodFails (wstr "12345678") (wstr "12345678"))
      = logMessages
          (WindowProc_IDC_BUTTON_SETPIN execMethodFails (wstr "87654321") (wstr "87654321")) ∧
    (∀ m ∈ logMessages
        (WindowProc_IDC_BUTTON_SETPIN execMethodFails (wstr "12345678") (wstr "12345678")),
      ¬ wstr "12345678" <:+: m) :=
  ⟨by decide, by decide,
    (C13_pin_not_logged execMethodFails execMethodFails (wstr "12345678") (wstr "12345678")
      (wstr "87654321") (wstr "87654321") (wstr "12345678") (wstr "12345678")).2.2.1 (by decide),
    ((C13_pin_not_logged execMethodFails execMethodFails (wstr "12345678") (wstr "12345678")
      (wstr "87654321") (wstr "87654321") (wstr "12345678") (wstr "12345678")).2.2.2.2
        (by decide)).1⟩

end BitLockerPINUI
